import Mathlib

/-!
# A verification development for the `stitch` language frontend and evaluator

This file gives a shallow embedding, in Lean 4, of the core of the `stitch`
repository: the token/AST data model, the Pratt parser, the tree-walking
interpreter with its environment chain, the structural `parity` check, the
legacy scanner, and the intermediate-cache load logic.  Each definition is
translated from the corresponding Rust source file; comments of the form
`-- src: file.rs` point back to the place a definition came from.

Modelling conventions, applied throughout:

* Rust `f32` is modelled as `Rat` (exact rational arithmetic).  Every number
  exercised by a theorem below is a small integral value on which `f32`
  arithmetic is exact, so no rounding behaviour is lost.
* Interior mutability (`Rc<RefCell<Environment>>`) is modelled by explicit
  state passing: evaluation functions take an environment and return the
  updated environment next to their value.
* `Substantive` in the source captures its defining environment through a
  shared reference; no claim below reads a noun's fields, so the captured
  environment is omitted from the model (only the name is kept, which is all
  that `parity`, `datatype` and the error messages use).
* The repository snapshot mixes revisions: `intepreter.rs` spells the boolean
  evaluation variant `Boolean` while `evaluation.rs` (the defining file) and
  the specification spell it `Notion`; `intepreter.rs` uses
  `Routine.object_declarations`/`instructions` while the `routine.rs` present
  in the tree has `object_parameters`/`instruction`.  The model uses the
  defining file's names and carries both `Routine` field sets so that both
  `evaluation.rs` and `intepreter.rs` can be embedded faithfully.
* General recursion through routine invocation is made total with an explicit
  `fuel : Nat` argument; exhausting the fuel yields a distinguished error that
  no theorem below ever reaches.
-/

/-! ## Error types (src: errors.rs) -/

/-- src: errors.rs, `EvaluationError`: a growable list of detail strings. -/
structure EvaluationError where
  details : List String
deriving DecidableEq, Repr

namespace EvaluationError

/-- src: errors.rs, `EvaluationError::new`. -/
def new (detail : String) : EvaluationError := ⟨[detail]⟩

/-- src: errors.rs, `EvaluationError::add`. -/
def add (e : EvaluationError) (detail : String) : EvaluationError :=
  ⟨e.details ++ [detail]⟩

/-- src: errors.rs, `EvaluationError::concat`. -/
def concat (e e' : EvaluationError) : EvaluationError :=
  ⟨e.details ++ e'.details⟩

/-- src: errors.rs, `EvaluationError::concat_if`. -/
def concat_if (e : EvaluationError) : Option EvaluationError → EvaluationError
  | some err => e.concat err
  | none => e

/-- src: errors.rs, `EvaluationError::error_count`. -/
def error_count (e : EvaluationError) : Nat := e.details.length

end EvaluationError

/-- src: errors.rs, `CompilerError`. -/
inductive CompilerError where
  | None
  | SourceError (msg : String)
  | LexicalError (msg : String)
  | RuntimeError (err : EvaluationError)
  | MultiError (errors : List CompilerError)
deriving Repr

/-! ## Datatypes and variables (src: datatype.rs, variable.rs) -/

mutual

/-- src: datatype.rs, `Datatype`.  `intepreter.rs` refers to the boolean
variant as `Boolean`; the defining file and the spec call it `Notion`. -/
inductive Datatype where
  | Number
  | Text
  | Notion
  | Noun (name : String)
  | Verb (vt : VerbType)
  | Adjective (name : String)
deriving Repr

/-- src: datatype.rs, `VerbType { name, parameters, hence_type }`. -/
inductive VerbType where
  | mk (name : String) (parameters : List Variable) (henceType : Option Datatype)
deriving Repr

/-- src: variable.rs, `Variable { name, datatype }`.  Equality and hashing in
the source ignore `datatype` (it is metadata); the custom `beq` below mirrors
that. -/
inductive Variable where
  | mk (name : String) (datatype : Option Datatype)
deriving Repr

end

namespace Variable

def name : Variable → String
  | .mk n _ => n

def datatype : Variable → Option Datatype
  | .mk _ dt => dt

/-- src: variable.rs, `Variable::new`. -/
def new (n : String) (dt : Datatype) : Variable := .mk n (some dt)

/-- src: variable.rs, `Variable::with`. -/
def with' (n : String) : Variable := .mk n none

/-- src: variable.rs: `PartialEq` is derived with the `datatype` field
ignored, so variables compare by name only. -/
def beq (a b : Variable) : Bool := a.name == b.name

instance : BEq Variable := ⟨Variable.beq⟩

end Variable

namespace VerbType

def name : VerbType → String
  | .mk n _ _ => n

def parameters : VerbType → List Variable
  | .mk _ ps _ => ps

def henceType : VerbType → Option Datatype
  | .mk _ _ h => h

/-- src: datatype.rs, `VerbType::new`. -/
def new (n : String) (params : List Variable) (hence : Option Datatype) : VerbType :=
  .mk n params hence

end VerbType

mutual

/-- src: datatype.rs: structural equality of the derived `PartialEq`, with
`Variable` comparing by name only (variable.rs). -/
def Datatype.beq : Datatype → Datatype → Bool
  | .Number, .Number => true
  | .Text, .Text => true
  | .Notion, .Notion => true
  | .Noun a, .Noun b => a == b
  | .Verb a, .Verb b => VerbType.beq a b
  | .Adjective a, .Adjective b => a == b
  | _, _ => false

def VerbType.beq : VerbType → VerbType → Bool
  | .mk n₁ ps₁ h₁, .mk n₂ ps₂ h₂ =>
    n₁ == n₂ && listVarBeq ps₁ ps₂ && optDatatypeBeq h₁ h₂

def listVarBeq : List Variable → List Variable → Bool
  | [], [] => true
  | v :: vs, w :: ws => v == w && listVarBeq vs ws
  | _, _ => false

def optDatatypeBeq : Option Datatype → Option Datatype → Bool
  | none, none => true
  | some a, some b => Datatype.beq a b
  | _, _ => false

end

instance : BEq Datatype := ⟨Datatype.beq⟩
instance : BEq VerbType := ⟨VerbType.beq⟩

mutual

/-- src: variable.rs, `impl fmt::Display for Variable`: `name: datatype` when
the metadata is present, else just the name. -/
def Variable.display : Variable → String
  | .mk n (some dt) => n ++ ": " ++ Datatype.display dt
  | .mk n none => n

/-- src: datatype.rs, `impl fmt::Display for Datatype`: `Noun(x)`, `Verb(vt)`,
`Adjective(x)`, and the `Debug` name for the built-in types. -/
def Datatype.display : Datatype → String
  | .Number => "Number"
  | .Text => "Text"
  | .Notion => "Notion"
  | .Noun n => "Noun(" ++ n ++ ")"
  | .Verb vt => "Verb(" ++ VerbType.display vt ++ ")"
  | .Adjective n => "Adjective(" ++ n ++ ")"

/-- src: datatype.rs, `impl fmt::Display for VerbType`:
`name(params) -> hence`. -/
def VerbType.display : VerbType → String
  | .mk n ps h =>
    n ++ "(" ++ String.intercalate ", " (listVarDisplay ps) ++ ") -> "
      ++ (match h with
          | some dt => Datatype.display dt
          | none => "Void")

def listVarDisplay : List Variable → List String
  | [] => []
  | v :: vs => Variable.display v :: listVarDisplay vs

end

/-! ## AST: prefixes, verbs, conjunctions, phrases, statements
(src: prefix.rs, verb.rs, conjunction.rs, primitive.rs, phrase.rs, statement.rs) -/

/-- src: prefix.rs, `Prefix` (renamed `PrefixOp` here). -/
inductive PrefixOp where
  | None
  | Not
  | Negation
  | Adjective (name : String)
deriving DecidableEq, Repr

/-- src: verb.rs, `Verb`. -/
inductive Verb where
  | None
  | Divide
  | Multiply
  | Subtract
  | Add
  | Assign
  | Action (name : String)
deriving DecidableEq, Repr

/-- src: conjunction.rs, `Conjunction`. -/
inductive Conjunction where
  | None
  | Greater
  | GreaterEqual
  | Less
  | LessEqual
  | Equal
  | NotEqual
  | Or
  | And
deriving DecidableEq, Repr

mutual

/-- src: primitive.rs, `Primitive`. -/
inductive Primitive where
  | Type (dt : Datatype)
  | Number (lit : String)
  | Text (lit : String)
  | True
  | False
  | It
  | Variable (name : String)
  | Collective (phrases : List Phrase)
deriving Repr

/-- src: phrase.rs, `Phrase`.  The Rust variants `Prefix`/`Postfix` are
renamed `PrefixQ`/`PostfixQ` here; their fields are unchanged. -/
inductive Phrase where
  | None
  | Primary (p : Primitive)
  | PostfixQ (noun : Phrase) (adjective : Phrase)
  | PrefixQ (op : PrefixOp) (noun : Phrase)
  | Action (subject : Option Phrase) (verb : Verb) (object : Option Phrase)
  | Condition (left : Phrase) (conj : Conjunction) (right : Phrase)
deriving Repr

end

/-- src: statement.rs, `Statement`.  The `Statements` newtype wrapper around
`Rc<[Statement]>` is flattened to `List Statement`.  `intepreter.rs` calls the
verb parameter field `object_declarations`; statement.rs (the defining file)
calls it `object_types`. -/
inductive Statement where
  | Noun (name : String) (superType : Option Datatype) (body : List Statement)
  | Verb (name : String) (henceType : Option Datatype) (subjectType : Option Datatype)
      (objectTypes : List Statement) (body : List Statement)
  | Adjective (name : String) (subjectType : Datatype) (body : List Statement)
  | So (name : String) (datatype : Datatype) (initializer : Option Phrase)
  | Phrase (phrase : Phrase)
  | Hence (phrase : Phrase)
deriving Repr

/-! ## Runtime values (src: evaluation.rs, routine.rs, substantive.rs) -/

/-- src: substantive.rs, `Substantive { name, environment }`.  The captured
`Rc<RefCell<Environment>>` is omitted (see the header): no claim below reads a
noun instance's fields, and `parity`, `datatype` and every error message use
only the name. -/
structure Substantive where
  name : String
deriving DecidableEq, Repr

mutual

/-- src: evaluation.rs, `Evaluation`.  `f32` is modelled as `Rat`;
`intepreter.rs` spells the `Notion` variant `Boolean`. -/
inductive Evaluation where
  | Void
  | Skip (e : Evaluation)
  | Conclusion (e : Evaluation)
  | Number (value : Rat)
  | Text (value : String)
  | Notion (value : Bool)
  | Collective (elems : List Evaluation)
  | Noun (s : Substantive)
  | Action (r : Routine)
  | Adjective (r : Routine)
deriving Repr

/-- src: routine.rs, `Routine`.  The snapshot's routine.rs has
`object_parameters : Rc<[VariableValue]>` (used by `Evaluation::datatype` and
`validate_object`), while the revision `intepreter.rs` compiles against has
`object_declarations : Rc<[Statement]>` and `instructions : Statements`
(used by `evaluate_routine`/`define_object`).  Both field sets are carried so
that each file can be embedded as written. -/
inductive Routine where
  | mk (name : String) (subjectType : Option Datatype)
      (objectParameters : List VariableValue)
      (objectDeclarations : List Statement)
      (instructions : List Statement)
deriving Repr

/-- src: variable.rs, `VariableValue { variable, value }` (field `variable`
renamed `var`: `variable` is a Lean keyword). -/
inductive VariableValue where
  | mk (var : Variable) (value : Evaluation)
deriving Repr

end

namespace Routine

def name : Routine → String
  | .mk n _ _ _ _ => n

def subjectType : Routine → Option Datatype
  | .mk _ st _ _ _ => st

def objectParameters : Routine → List VariableValue
  | .mk _ _ ps _ _ => ps

def objectDeclarations : Routine → List Statement
  | .mk _ _ _ ds _ => ds

def instructions : Routine → List Statement
  | .mk _ _ _ _ is => is

/-- src: routine.rs, `Routine::new` (the interpreter-side revision: custom
instructions, no parameter defaults). -/
def new (n : String) (st : Option Datatype) (decls : List Statement)
    (body : List Statement) : Routine :=
  .mk n st [] decls body

end Routine

namespace VariableValue

def var : VariableValue → Variable
  | .mk v _ => v

def value : VariableValue → Evaluation
  | .mk _ e => e

end VariableValue

/-! ## The `f32` model -/

/-- `f32::EPSILON` = 2⁻²³, used by `Evaluation::equal` and the lexeme
normalizers. -/
def f32Epsilon : Rat := 1 / 8388608

/-- Digit run of a character list: the leading digits and the rest. -/
def takeDigits (cs : List Char) : List Char × List Char :=
  (cs.takeWhile Char.isDigit, cs.dropWhile Char.isDigit)

/-- Value of a digit string, most significant first. -/
def digitsToNat (cs : List Char) : Nat :=
  cs.foldl (fun acc c => 10 * acc + (c.toNat - 48)) 0

/-- Decimal literals `[-]digit+[.digit+]` as exact rationals.  This is the
sublanguage of `str::parse::<f32>` that the pipeline's lexemes use (the
lexers never produce exponent/`inf`/`NaN` forms); anything else is `none`. -/
def parseDecimal : String → Option Rat := fun s =>
  let cs := s.toList
  let (neg, cs) := match cs with
    | '-' :: rest => (true, rest)
    | _ => (false, cs)
  let (ds, rest) := takeDigits cs
  if ds.isEmpty then none
  else
    let sign : Rat := if neg then -1 else 1
    match rest with
    | [] => some (sign * digitsToNat ds)
    | '.' :: rest' =>
      let (fs, rest'') := takeDigits rest'
      if fs.isEmpty || !rest''.isEmpty then none
      else some (sign * (digitsToNat ds + (digitsToNat fs : Rat) / (10 ^ fs.length)))
    | _ => none

/-- `str::parse::<f32>().unwrap_or_default()`: `0` on failure
(src: intepreter.rs `evaluate_primitive`, token.rs `TokenCollection::add`). -/
def parseF32 (s : String) : Rat :=
  (parseDecimal s).getD 0

/-- `f32::fract` (fractional part, truncating toward zero). -/
def ratFract (q : Rat) : Rat :=
  q - (q.num / (q.den : Int) : Int)

/-- Decimal rendering of a non-negative rational, at least one fractional
digit, up to nine (the values the pipeline formats are exact in far fewer).
Used for the `format!("{}")` branch of the number normalizers, which no
theorem below exercises with a non-integral value. -/
def decimalDigitsString (q : Rat) (n : Nat) : String :=
  let ip := q.floor
  let rest := q - ip
  toString ip ++ "." ++
    (String.mk ((List.range n).map (fun i =>
      Char.ofNat (48 + ((rest * 10 ^ (i + 1)).floor.toNat % 10)))))

/-- `format!("{:.1}", x)` on an exactly-representable value whose fractional
part is 0 (the only case the theorems reach): `N.0`. -/
def formatOneDecimal (q : Rat) : String :=
  let t : Int := (q * 10).floor
  toString (t / 10) ++ "." ++ toString (t % 10).toNat

/-- src: token.rs `TokenCollection::add` / scanner.rs `add_token`: a parsed
number is re-rendered as `format!("{}")` when its fractional part exceeds
`f32::EPSILON`, else `format!("{:.1}")`. -/
def normalizeNumber (q : Rat) : String :=
  if ratFract q > f32Epsilon then decimalDigitsString q 9 else formatOneDecimal q

/-! ## Evaluation helpers (src: evaluation.rs) -/

namespace Evaluation

/-- src: evaluation.rs, `Evaluation::datatype`.  Note the source passes the
routine's `subject_type` in `VerbType::new`'s `hence_type` slot; embedded as
written. -/
def datatype : Evaluation → Option Datatype
  | .Void => none
  | .Skip _ => none
  | .Conclusion _ => none
  | .Number _ => some .Number
  | .Text _ => some .Text
  | .Notion _ => some .Notion
  | .Collective _ => none
  | .Noun s => some (.Noun s.name)
  | .Action r =>
    some (.Verb (VerbType.new r.name (r.objectParameters.map VariableValue.var) r.subjectType))
  | .Adjective r => some (.Adjective r.name)

/-- src: evaluation.rs, `Evaluation::equal`: numbers within `f32::EPSILON`,
text and notions by value, `Void == Void`, everything else `false`. -/
def equal : Evaluation → Evaluation → Bool
  | .Void, .Void => true
  | .Void, _ => false
  | _, .Void => false
  | .Number l, .Number r => decide (|l - r| < f32Epsilon)
  | .Text l, .Text r => l == r
  | .Notion l, .Notion r => l == r
  | _, _ => false

/-- Rendered datatype, `"Void"` when absent — the `map_or` in parity's
catch-all arm. -/
def datatypeDisplay (e : Evaluation) : String :=
  match e.datatype with
  | some dt => dt.display
  | none => "Void"

end Evaluation

mutual

/-- src: evaluation.rs, `Evaluation::parity`, arm for arm in source order. -/
def Evaluation.parity : Evaluation → Evaluation → Except String Unit
  | .Void, .Void => .ok ()
  | .Void, found =>
    match found.datatype with
    | none => .ok ()
    | some dt => .error ("expected Void but found " ++ dt.display)
  | expected, .Void =>
    match expected.datatype with
    | none => .ok ()
    | some dt => .error ("expected " ++ dt.display ++ " but found Void")
  | .Collective expected, .Collective found =>
    if expected.length != found.length then
      .error ("collectives do not match in length, expected " ++ toString expected.length
        ++ " but found " ++ toString found.length ++ " object(s)")
    else
      parityList expected found
  | .Collective expected, found =>
    match expected with
    | [e] => Evaluation.parity e found
    | _ =>
      .error ("collectives do not match in length, expected " ++ toString expected.length
        ++ " but found 1 object(s)")
  | expected, .Collective found =>
    match found with
    | [f] => Evaluation.parity expected f
    | _ =>
      .error ("collectives do not match in length, expected 1 but found "
        ++ toString found.length ++ " object(s)")
  | .Number _, .Number _ => .ok ()
  | .Text _, .Text _ => .ok ()
  | .Notion _, .Notion _ => .ok ()
  | .Noun expected, .Noun found =>
    if expected.name == found.name then .ok ()
    else .error ("expected " ++ expected.name ++ " but found " ++ found.name)
  | expected, found =>
    .error ("expected " ++ expected.datatypeDisplay ++ " but found " ++ found.datatypeDisplay)

/-- Positional parity of two equal-length collectives (the zipped
`collect::<Result<…>>` in the source). -/
def parityList : List Evaluation → List Evaluation → Except String Unit
  | [], _ => .ok ()
  | _ :: _, [] => .ok ()
  | e :: es, f :: fs => do
    let _ ← Evaluation.parity e f
    parityList es fs

end

/-! ## Environments (src: environment.rs)

`Environment { outer: Option<Rc<RefCell<Environment>>>, values: HashMap }` is
modelled as a value-type chain: `root` for `outer == None`, `child` for
`outer == Some(..)`.  The `HashMap<Variable, Evaluation>` hashes and compares
keys by name only (variable.rs), so a scope is an association list keyed by
name, with `HashMap::insert`'s replace-value-keep-key semantics. -/

/-- A single scope's value table. -/
abbrev Scope := List (String × Evaluation)

/-- `HashMap::get` by name. -/
def scopeGet : Scope → String → Option Evaluation
  | [], _ => none
  | (k, v) :: rest, n => if k == n then some v else scopeGet rest n

/-- `HashMap::insert`: replace the binding if the key is present, else add. -/
def scopeInsert : Scope → String → Evaluation → Scope
  | [], n, v => [(n, v)]
  | (k, w) :: rest, n, v =>
    if k == n then (k, v) :: rest else (k, w) :: scopeInsert rest n v

/-- `HashMap::contains_key` by name. -/
def scopeContains (s : Scope) (n : String) : Bool :=
  (scopeGet s n).isSome

/-- src: environment.rs, `Environment`. -/
inductive Env where
  | root (values : Scope)
  | child (values : Scope) (outer : Env)
deriving Repr

namespace Env

def values : Env → Scope
  | .root vs => vs
  | .child vs _ => vs

def outer : Env → Option Env
  | .root _ => none
  | .child _ o => some o

/-- `Environment::default()`. -/
def empty : Env := .root []

/-- src: environment.rs, `Environment::within_scope`. -/
def within_scope (o : Env) : Env := .child [] o

/-- src: environment.rs, `Environment::define`: always insert into the
current scope. -/
def define : Env → String → Evaluation → Env
  | .root vs, n, v => .root (scopeInsert vs n v)
  | .child vs o, n, v => .child (scopeInsert vs n v) o

/-- src: environment.rs, `Environment::get`: current scope first, else walk
the outer chain. -/
def get : Env → String → Option Evaluation
  | .root vs, n => scopeGet vs n
  | .child vs o, n =>
    match scopeGet vs n with
    | some v => some v
    | none => o.get n

/-- src: environment.rs, `Environment::contains_var` (current scope only). -/
def contains_var (env : Env) (n : String) : Bool :=
  scopeContains env.values n

/-- src: environment.rs, `Environment::assign`: mutate the innermost scope
already defining the name; `Err(name)` when no scope in the chain does. -/
def assign : Env → String → Evaluation → Except String Env
  | .root vs, n, v =>
    if scopeContains vs n then .ok (.root (scopeInsert vs n v))
    else .error n
  | .child vs o, n, v =>
    if scopeContains vs n then .ok (.child (scopeInsert vs n v) o)
    else (o.assign n v).map (fun o' => .child vs o')

/-- The chain's scopes, innermost first (a specification-side view used by
the environment theorems). -/
def scopes : Env → List Scope
  | .root vs => [vs]
  | .child vs o => vs :: o.scopes

end Env

/-! ## Truthiness and subject validation
(src: intepreter.rs `evaluate_truth`, routine.rs `validate_subject`) -/

mutual

/-- src: intepreter.rs, `evaluate_truth`.  The `environment` parameter of the
source is passed only to the recursive calls on collective elements and never
read, so it is dropped here. -/
def evaluate_truth : Evaluation → Except EvaluationError Evaluation
  | .Void => .error (.new "Invalid boolean condition for void")
  | .Skip _ => .error (.new "Invalid boolean condition for skip")
  | .Conclusion _ => .error (.new "Invalid boolean condition for conclusion")
  | .Number value => .ok (.Notion (value != 0))
  | .Text _ => .ok (.Notion true)
  | .Notion value => .ok (.Notion value)
  | .Collective evaluations => do
    let values ← truthList evaluations
    .ok (.Notion (values.all id))
  | .Noun substantive =>
    .error (.new ("No implementation of truth for noun " ++ substantive.name))
  | .Action _ => .error (.new "Invalid boolean condition for action")
  | .Adjective routine =>
    .error (.new ("No implementation of truth for adjective " ++ routine.name))
termination_by structural e => e

/-- The elementwise truth of a collective (the `map`/`collect` in the
source); elements that are not notions after `evaluate_truth` are impossible,
but the source guards them with an error, kept here. -/
def truthList : List Evaluation → Except EvaluationError (List Bool)
  | [] => .ok []
  | e :: es =>
    match evaluate_truth e with
    | .ok (.Notion value) => do
      let rest ← truthList es
      .ok (value :: rest)
    | .ok _ => .error (.new "Invalid boolean condition for collective element")
    | .error error => .error error
termination_by structural es => es

end

/-- src: routine.rs, `Routine::validate_subject`: `(Void, None)` is legal,
otherwise the subject's datatype must equal the routine's subject type. -/
def Routine.validate_subject (r : Routine) (subject : Evaluation) : Except EvaluationError Unit :=
  match subject, r.subjectType with
  | .Void, none => .ok ()
  | subject, datatype =>
    if subject.datatype == datatype then .ok ()
    else
      let expectedType := match datatype with
        | some dt => dt.display
        | none => "Void"
      let foundType := match subject.datatype with
        | some dt => dt.display
        | none => "Void"
      .error (.new ("Invalid subject type for action " ++ r.name ++ ", expected "
        ++ expectedType ++ " but found " ++ foundType))

/-! ## Tokens and the precedence table (src: token.rs, precedent.rs) -/

/-- src: token.rs, `TokenType`. -/
inductive TokenType where
  | None
  | LeftParen
  | RightParen
  | LeftBrace
  | RightBrace
  | Comma
  | Dot
  | Minus
  | Plus
  | Slash
  | Star
  | Equal
  | Tilde
  | Greater
  | GreaterEqual
  | Less
  | LessEqual
  | Identifier
  | Number
  | Text
  | Type (dt : Datatype)
  | Adjective
  | And
  | As
  | False
  | For
  | Hence
  | Is
  | It
  | Noun
  | Not
  | Or
  | So
  | The
  | To
  | True
  | Verb
  | When
  | EOF
deriving Repr

/-- Structural equality of `TokenType` (its derived `PartialEq`), with the
`Datatype` payload compared as in datatype.rs. -/
def TokenType.beq : TokenType → TokenType → Bool
  | .None, .None => true
  | .LeftParen, .LeftParen => true
  | .RightParen, .RightParen => true
  | .LeftBrace, .LeftBrace => true
  | .RightBrace, .RightBrace => true
  | .Comma, .Comma => true
  | .Dot, .Dot => true
  | .Minus, .Minus => true
  | .Plus, .Plus => true
  | .Slash, .Slash => true
  | .Star, .Star => true
  | .Equal, .Equal => true
  | .Tilde, .Tilde => true
  | .Greater, .Greater => true
  | .GreaterEqual, .GreaterEqual => true
  | .Less, .Less => true
  | .LessEqual, .LessEqual => true
  | .Identifier, .Identifier => true
  | .Number, .Number => true
  | .Text, .Text => true
  | .Type a, .Type b => a == b
  | .Adjective, .Adjective => true
  | .And, .And => true
  | .As, .As => true
  | .False, .False => true
  | .For, .For => true
  | .Hence, .Hence => true
  | .Is, .Is => true
  | .It, .It => true
  | .Noun, .Noun => true
  | .Not, .Not => true
  | .Or, .Or => true
  | .So, .So => true
  | .The, .The => true
  | .To, .To => true
  | .True, .True => true
  | .Verb, .Verb => true
  | .When, .When => true
  | .EOF, .EOF => true
  | _, _ => false

instance : BEq TokenType := ⟨TokenType.beq⟩

/-- `Display`/`Debug` rendering of a token type, used in parser messages. -/
def TokenType.display : TokenType → String
  | .None => "None"
  | .LeftParen => "LeftParen"
  | .RightParen => "RightParen"
  | .LeftBrace => "LeftBrace"
  | .RightBrace => "RightBrace"
  | .Comma => "Comma"
  | .Dot => "Dot"
  | .Minus => "Minus"
  | .Plus => "Plus"
  | .Slash => "Slash"
  | .Star => "Star"
  | .Equal => "Equal"
  | .Tilde => "Tilde"
  | .Greater => "Greater"
  | .GreaterEqual => "GreaterEqual"
  | .Less => "Less"
  | .LessEqual => "LessEqual"
  | .Identifier => "Identifier"
  | .Number => "Number"
  | .Text => "Text"
  | .Type dt => "Type(" ++ dt.display ++ ")"
  | .Adjective => "Adjective"
  | .And => "And"
  | .As => "As"
  | .False => "False"
  | .For => "For"
  | .Hence => "Hence"
  | .Is => "Is"
  | .It => "It"
  | .Noun => "Noun"
  | .Not => "Not"
  | .Or => "Or"
  | .So => "So"
  | .The => "The"
  | .To => "To"
  | .True => "True"
  | .Verb => "Verb"
  | .When => "When"
  | .EOF => "EOF"

/-- src: token.rs, `Token { name, lexeme, line }`. -/
structure Token where
  name : TokenType
  lexeme : String
  line : Nat
deriving Repr

/-- src: precedent.rs, `Precedent` (constructors suffixed `BP` for binding
power). -/
inductive Precedent where
  | None
  | PrefixBP (bp : Nat)
  | PostfixBP (bp : Nat)
  | InfixBP (lbp rbp : Nat)
deriving DecidableEq, Repr

/-- src: token.rs, `TokenType::precedent` — the Pratt table. -/
def TokenType.precedent : TokenType → Precedent
  | .Identifier => .InfixBP 1 2
  | .Comma => .InfixBP 1 2
  | .When => .PostfixBP 3
  | .As => .InfixBP 5 4
  | .Or => .InfixBP 6 7
  | .And => .InfixBP 8 9
  | .Equal => .InfixBP 10 11
  | .Tilde => .InfixBP 10 11
  | .Greater => .InfixBP 12 13
  | .GreaterEqual => .InfixBP 12 13
  | .Less => .InfixBP 12 13
  | .LessEqual => .InfixBP 12 13
  | .Minus => .InfixBP 14 15
  | .Plus => .InfixBP 14 15
  | .Slash => .InfixBP 16 17
  | .Star => .InfixBP 16 17
  | .Not => .PrefixBP 18
  | .The => .PrefixBP 19
  | _ => .None

/-- src: token.rs, `TokenCategory`. -/
inductive TokenCategory where
  | Atom (t : Token)
  | Op (t : Token)
  | EOF
deriving Repr

/-- src: token.rs, `impl From<Token> for TokenCategory`. -/
def TokenCategory.ofToken (t : Token) : TokenCategory :=
  match t.name with
  | .None | .Identifier | .Number | .False | .True | .Text | .Type _ | .It => .Atom t
  | .EOF => .EOF
  | _ => .Op t

/-- src: verb.rs, `impl From<TokenType> for Verb`.  Note the `Identifier` arm:
the verb name is the placeholder literal `"<Action>"`, not the identifier's
lexeme (the `From` conversion never sees the lexeme). -/
def Verb.fromTokenType : TokenType → Verb
  | .Slash => .Divide
  | .Star => .Multiply
  | .Minus => .Subtract
  | .Plus => .Add
  | .As => .Assign
  | .Identifier => .Action "<Action>"
  | _ => .None

/-- src: conjunction.rs, `impl From<TokenType> for Conjunction` (note `Tilde`
maps to `NotEqual`). -/
def Conjunction.fromTokenType : TokenType → Conjunction
  | .Greater => .Greater
  | .GreaterEqual => .GreaterEqual
  | .Less => .Less
  | .LessEqual => .LessEqual
  | .Equal => .Equal
  | .Tilde => .NotEqual
  | .Or => .Or
  | .And => .And
  | _ => .None

/-! ## The token buffer (src: token.rs, `impl TokenBuffer for Peekable<Iter>`)

The peekable iterator is modelled as the list of remaining tokens. -/

/-- `TokenBuffer::is_at_end`: exhausted or at the `EOF` token. -/
def tbAtEnd : List Token → Bool
  | [] => true
  | t :: _ => t.name == TokenType.EOF

/-- `TokenBuffer::peek_next`. -/
def tbPeek (ts : List Token) (target : TokenType) : Bool :=
  if tbAtEnd ts then false
  else match ts with
    | t :: _ => t.name == target
    | [] => false

/-- `TokenBuffer::match_next`: consume the head iff its type is among
`targets`. -/
def tbMatch (ts : List Token) (targets : List TokenType) : Bool × List Token :=
  match ts with
  | t :: rest => if targets.any (fun tt => t.name == tt) then (true, rest) else (false, ts)
  | [] => (false, ts)

/-- `TokenBuffer::consume`: the head if it has the target type, else the
source's error message. -/
def tbConsume (ts : List Token) (target : TokenType) : Except CompilerError (Token × List Token) :=
  match ts with
  | t :: rest =>
    if t.name == target then .ok (t, rest)
    else .error (.LexicalError ("[line " ++ toString t.line ++ "] Error at '" ++ t.lexeme
      ++ "': Expect " ++ target.display ++ "."))
  | [] => .error (.LexicalError "Consuming token at end of file")

/-- `if let Ok(_) = tokens.consume(..)` — the optional-consume pattern used
by the definition handlers. -/
def tbTryConsume (ts : List Token) (target : TokenType) : Option (Token × List Token) :=
  match ts with
  | t :: rest => if t.name == target then some (t, rest) else none
  | [] => none

/-! ## The Pratt parser (src: parser.rs)

Each handler takes the remaining token list and returns its result with the
tokens left over; `fuel` makes the mutual recursion total (never exhausted in
any theorem below).  `Parser::parse` accumulates per-statement errors into a
`MultiError` and resumes from the shared buffer's position; the embedding's
top loop stops at the first error instead (every program a theorem below
parses is error-free, so the recovery path is not modelled). -/

/-- The source's repeated `"{} has a wrong precedent type."` message. -/
def wrongPrecedentMsg (t : Token) : String :=
  "[line " ++ toString t.line ++ "] Error at '" ++ t.lexeme ++ "': "
    ++ t.name.display ++ " has a wrong precedent type."

/-- `"{} is invalid operator."` (phrase loop, adjective loop). -/
def invalidOperatorMsg (t : Token) : String :=
  "[line " ++ toString t.line ++ "] Error at '" ++ t.lexeme ++ "': "
    ++ t.name.display ++ " is invalid operator."

/-- `Debug` rendering of `Option<&Token>` for the `"Invalid datatype"`
message (not exercised by any theorem). -/
def tokenOptDebug : Option Token → String
  | some t =>
    "Some(Token \x7b name: " ++ t.name.display ++ ", lexeme: \"" ++ t.lexeme
      ++ "\", line: " ++ toString t.line ++ " \x7d)"
  | none => "None"

/-- The datatype-token match repeated in the definition handlers of
parser.rs: a `Type(dt)` token or an identifier.  parser.rs spells the
identifier case `Datatype::Custom(lexeme)`, a variant the snapshot's
datatype.rs does not have; per spec §4.4 a TYPE identifier denotes
`Noun(name)`, which is what the model uses. -/
def parseDatatypeTok (ts : List Token) : Except CompilerError (Datatype × List Token) :=
  match ts with
  | t :: rest =>
    match t.name with
    | .Type dt => .ok (dt, rest)
    | .Identifier => .ok (.Noun t.lexeme, rest)
    | _ => .error (.LexicalError ("Invalid datatype " ++ tokenOptDebug (some t)))
  | [] => .error (.LexicalError ("Invalid datatype " ++ tokenOptDebug none))

/-- src: parser.rs, `handle_atom`. -/
def handle_atom (token : Token) : Except CompilerError Phrase :=
  if token.name == TokenType.It then .ok (.Primary .It)
  else if token.name == TokenType.False then .ok (.Primary .False)
  else if token.name == TokenType.True then .ok (.Primary .True)
  else if token.name == TokenType.Number then .ok (.Primary (.Number token.lexeme))
  else if token.name == TokenType.Text then .ok (.Primary (.Text token.lexeme))
  else if token.name == TokenType.Identifier then .ok (.Primary (.Variable token.lexeme))
  else .error (.LexicalError ("At '" ++ token.lexeme ++ "' [line " ++ toString token.line
    ++ "], invalid noun or adjective"))

mutual

/-- src: parser.rs, `handle_prose`: definitions start with `noun`, `verb`,
`adjective` or `so`; everything else is a sentence. -/
def handle_prose : Nat → List Token → Except CompilerError (Statement × List Token)
  | 0, _ => .error (.LexicalError "out of fuel")
  | fuel + 1, ts =>
    if tbPeek ts .Noun || tbPeek ts .Verb || tbPeek ts .Adjective || tbPeek ts .So then
      handle_definition fuel ts
    else
      handle_sentence fuel ts

/-- src: parser.rs, `handle_definition`. -/
def handle_definition : Nat → List Token → Except CompilerError (Statement × List Token)
  | 0, _ => .error (.LexicalError "out of fuel")
  | fuel + 1, ts =>
    match tbMatch ts [.Noun] with
    | (true, ts') => handle_noun_definition fuel ts'
    | (false, _) =>
    match tbMatch ts [.Verb] with
    | (true, ts') => handle_verb_definition fuel ts'
    | (false, _) =>
    match tbMatch ts [.Adjective] with
    | (true, ts') => handle_adjective_definition fuel ts'
    | (false, _) =>
    match tbMatch ts [.So] with
    | (true, ts') => handle_so_definition fuel ts'
    | (false, _) =>
    match ts with
    | [] => .error (.LexicalError "Unexpected EOF")
    | token :: _ =>
      .error (.LexicalError ("At '" ++ token.lexeme ++ "' [line " ++ toString token.line
        ++ "], invalid definition"))

/-- src: parser.rs, `handle_noun_definition`. -/
def handle_noun_definition : Nat → List Token → Except CompilerError (Statement × List Token)
  | 0, _ => .error (.LexicalError "out of fuel")
  | fuel + 1, ts => do
    let (nameTok, ts) ← tbConsume ts .Identifier
    let (superType, ts) ←
      match tbTryConsume ts .Is with
      | some (_, ts') => do
        let (dt, ts'') ← parseDatatypeTok ts'
        pure (some dt, ts'')
      | none => pure ((none : Option Datatype), ts)
    let (_, ts) ← tbConsume ts .LeftBrace
    let (defs, ts) ← definitionLoop fuel ts
    let (_, ts) ← tbConsume ts .RightBrace
    .ok (.Noun nameTok.lexeme superType defs, ts)

/-- The `while !peek(RightBrace) && !at_end { handle_definition }` loop of a
noun body. -/
def definitionLoop : Nat → List Token → Except CompilerError (List Statement × List Token)
  | 0, _ => .error (.LexicalError "out of fuel")
  | fuel + 1, ts =>
    if !tbPeek ts .RightBrace && !tbAtEnd ts then do
      let (d, ts) ← handle_definition fuel ts
      let (ds, ts) ← definitionLoop fuel ts
      .ok (d :: ds, ts)
    else
      .ok ([], ts)

/-- src: parser.rs, `handle_verb_definition`. -/
def handle_verb_definition : Nat → List Token → Except CompilerError (Statement × List Token)
  | 0, _ => .error (.LexicalError "out of fuel")
  | fuel + 1, ts => do
    let (nameTok, ts) ← tbConsume ts .Identifier
    let (henceType, ts) ←
      match tbTryConsume ts .Is with
      | some (_, ts') => do
        let (dt, ts'') ← parseDatatypeTok ts'
        pure (some dt, ts'')
      | none => pure ((none : Option Datatype), ts)
    let (subjectType, ts) ←
      match tbTryConsume ts .For with
      | some (_, ts') => do
        let (dt, ts'') ← parseDatatypeTok ts'
        pure (some dt, ts'')
      | none => pure ((none : Option Datatype), ts)
    let (parameters, ts) ←
      match tbTryConsume ts .When with
      | some (_, ts') => handle_parameters fuel ts'
      | none => pure (([] : List Statement), ts)
    let (_, ts) ← tbConsume ts .LeftBrace
    let (sentences, ts) ← sentenceLoop fuel ts
    let (_, ts) ← tbConsume ts .RightBrace
    .ok (.Verb nameTok.lexeme henceType subjectType parameters sentences, ts)

/-- The `while !peek(RightBrace) && !at_end { handle_sentence }` loop of a
verb or adjective body. -/
def sentenceLoop : Nat → List Token → Except CompilerError (List Statement × List Token)
  | 0, _ => .error (.LexicalError "out of fuel")
  | fuel + 1, ts =>
    if !tbPeek ts .RightBrace && !tbAtEnd ts then do
      let (s, ts) ← handle_sentence fuel ts
      let (ss, ts) ← sentenceLoop fuel ts
      .ok (s :: ss, ts)
    else
      .ok ([], ts)

/-- src: parser.rs, `handle_parameters`: `so decl (, [and] so decl)*`, the
`and` variant terminating the list. -/
def handle_parameters : Nat → List Token → Except CompilerError (List Statement × List Token)
  | 0, _ => .error (.LexicalError "out of fuel")
  | fuel + 1, ts => do
    let (_, ts) ← tbConsume ts .So
    let (d, ts) ← handle_so_declaration fuel ts
    parameterLoop fuel ts [d]

/-- The comma loop of `handle_parameters`. -/
def parameterLoop : Nat → List Token → List Statement →
    Except CompilerError (List Statement × List Token)
  | 0, _, _ => .error (.LexicalError "out of fuel")
  | fuel + 1, ts, acc =>
    match tbMatch ts [.Comma] with
    | (false, ts') => .ok (acc, ts')
    | (true, ts₁) =>
      match tbMatch ts₁ [.And] with
      | (true, ts₂) => do
        let (_, ts₃) ← tbConsume ts₂ .So
        let (d, ts₄) ← handle_so_declaration fuel ts₃
        .ok (acc ++ [d], ts₄)
      | (false, ts₂) => do
        let (_, ts₃) ← tbConsume ts₂ .So
        let (d, ts₄) ← handle_so_declaration fuel ts₃
        parameterLoop fuel ts₄ (acc ++ [d])

/-- src: parser.rs, `handle_adjective_definition`. -/
def handle_adjective_definition : Nat → List Token → Except CompilerError (Statement × List Token)
  | 0, _ => .error (.LexicalError "out of fuel")
  | fuel + 1, ts => do
    let (nameTok, ts) ← tbConsume ts .Identifier
    match tbTryConsume ts .For with
    | some (_, ts') => do
      let (dt, ts) ← parseDatatypeTok ts'
      let (_, ts) ← tbConsume ts .LeftBrace
      let (sentences, ts) ← sentenceLoop fuel ts
      let (_, ts) ← tbConsume ts .RightBrace
      .ok (.Adjective nameTok.lexeme dt sentences, ts)
    | none => .error (.LexicalError "Adjective missing subject datatype")

/-- src: parser.rs, `handle_so_definition`: a so-declaration plus its
terminating `.`. -/
def handle_so_definition : Nat → List Token → Except CompilerError (Statement × List Token)
  | 0, _ => .error (.LexicalError "out of fuel")
  | fuel + 1, ts => do
    let (d, ts) ← handle_so_declaration fuel ts
    let (_, ts) ← tbConsume ts .Dot
    .ok (d, ts)

/-- src: parser.rs, `handle_so_declaration`: `NAME is TYPE [as phrase]`.  The
initializer is parsed with the `as` token's right binding power (4). -/
def handle_so_declaration : Nat → List Token → Except CompilerError (Statement × List Token)
  | 0, _ => .error (.LexicalError "out of fuel")
  | fuel + 1, ts => do
    let (nameTok, ts) ← tbConsume ts .Identifier
    let (_, ts) ← tbConsume ts .Is
    let (datatype, ts) ← parseDatatypeTok ts
    match ts with
    | [] => .error (.LexicalError "Unexpected EOF")
    | token :: _ =>
      match tbMatch ts [.As] with
      | (true, ts₁) =>
        match token.name.precedent with
        | .InfixBP _ rbp => do
          let (init, ts₂) ← handle_phrase fuel ts₁ rbp
          .ok (.So nameTok.lexeme datatype (some init), ts₂)
        | _ => .error (.LexicalError (wrongPrecedentMsg token))
      | (false, ts₁) => .ok (.So nameTok.lexeme datatype none, ts₁)

/-- src: parser.rs, `handle_sentence`: `[hence] phrase .`. -/
def handle_sentence : Nat → List Token → Except CompilerError (Statement × List Token)
  | 0, _ => .error (.LexicalError "out of fuel")
  | fuel + 1, ts => do
    let (hence, ts) := tbMatch ts [.Hence]
    let (phrase, ts) ← handle_phrase fuel ts 0
    let (_, ts) ← tbConsume ts .Dot
    if hence then .ok (.Hence phrase, ts) else .ok (.Phrase phrase, ts)

/-- src: parser.rs, `handle_phrase`: read a nud (atom or prefix), then run
the Pratt loop. -/
def handle_phrase : Nat → List Token → Nat → Except CompilerError (Phrase × List Token)
  | 0, _, _ => .error (.LexicalError "out of fuel")
  | fuel + 1, ts, precedent =>
    match ts with
    | [] => .error (.LexicalError "Unexpected EOF")
    | t :: rest =>
      match TokenCategory.ofToken t with
      | .Atom token => do
        let phrase ← handle_atom token
        phraseLoop fuel rest phrase precedent
      | .Op token => do
        let (phrase, ts') ← handle_prefixOp fuel rest token
        phraseLoop fuel ts' phrase precedent
      | .EOF => .error (.LexicalError "Unexpected EOF")

/-- The Pratt loop of `handle_phrase`: every infix operator builds a
`Phrase::Action` whose verb is `Verb::from(op.name)` (identifiers included);
`when` triggers the postfix handler. -/
def phraseLoop : Nat → List Token → Phrase → Nat → Except CompilerError (Phrase × List Token)
  | 0, _, _, _ => .error (.LexicalError "out of fuel")
  | fuel + 1, ts, phrase, precedent =>
    match ts with
    | [] => .ok (phrase, ts)
    | cur :: _ =>
      match TokenCategory.ofToken cur with
      | .EOF => .ok (phrase, ts)
      | .Op op => phraseLoopStep fuel ts phrase precedent op
      | .Atom tok =>
        if tok.name == TokenType.Identifier then
          phraseLoopStep fuel ts phrase precedent tok
        else
          .error (.LexicalError (invalidOperatorMsg tok))

/-- One iteration of the Pratt loop on operator `op` (still unconsumed). -/
def phraseLoopStep : Nat → List Token → Phrase → Nat → Token →
    Except CompilerError (Phrase × List Token)
  | 0, _, _, _, _ => .error (.LexicalError "out of fuel")
  | fuel + 1, ts, phrase, precedent, op =>
    match op.name.precedent with
    | .PostfixBP lbp =>
      if lbp < precedent then .ok (phrase, ts)
      else do
        let (phrase', ts') ← handle_postfixOp fuel ts phrase
        phraseLoop fuel ts' phrase' precedent
    | .InfixBP lbp rbp =>
      if lbp < precedent then .ok (phrase, ts)
      else do
        let ts₁ := ts.tail
        let (object, ts₂) ← handle_collective fuel ts₁ rbp
        phraseLoop fuel ts₂
          (.Action (some phrase) (Verb.fromTokenType op.name) (some object)) precedent
    | _ => .ok (phrase, ts)

/-- src: parser.rs, `handle_collective`: parse one phrase, then a comma loop
whose right binding power comes from the token current at entry; a trailing
`, and`/`, or` closes the collective. -/
def handle_collective : Nat → List Token → Nat → Except CompilerError (Phrase × List Token)
  | 0, _, _ => .error (.LexicalError "out of fuel")
  | fuel + 1, ts, precedent => do
    let (p, ts₁) ← handle_phrase fuel ts precedent
    match ts₁ with
    | [] => .ok (p, ts₁)
    | current :: _ => do
      let (phrases, ts₂) ← collectiveLoop fuel ts₁ current [p]
      match phrases with
      | [single] => .ok (single, ts₂)
      | _ => .ok (.Primary (.Collective phrases), ts₂)

/-- The comma loop of `handle_collective`. -/
def collectiveLoop : Nat → List Token → Token → List Phrase →
    Except CompilerError (List Phrase × List Token)
  | 0, _, _, _ => .error (.LexicalError "out of fuel")
  | fuel + 1, ts, token, acc =>
    match tbMatch ts [.Comma] with
    | (false, ts') => .ok (acc, ts')
    | (true, ts₁) =>
      match tbMatch ts₁ [.And, .Or] with
      | (true, ts₂) =>
        match token.name.precedent with
        | .InfixBP _ rbp => do
          let (p, ts₃) ← handle_phrase fuel ts₂ rbp
          .ok (acc ++ [p], ts₃)
        | _ => .error (.LexicalError (wrongPrecedentMsg token))
      | (false, ts₂) =>
        match token.name.precedent with
        | .InfixBP _ rbp => do
          let (p, ts₃) ← handle_phrase fuel ts₂ rbp
          collectiveLoop fuel ts₃ token (acc ++ [p])
        | _ => .error (.LexicalError (wrongPrecedentMsg token))

/-- src: parser.rs, `handle_postfix`: consume `when`, parse the right-hand
side with the adjective-only sub-grammar. -/
def handle_postfixOp : Nat → List Token → Phrase → Except CompilerError (Phrase × List Token)
  | 0, _, _ => .error (.LexicalError "out of fuel")
  | fuel + 1, ts, noun =>
    match ts with
    | [] => .error (.LexicalError "Unexpected EOF")
    | token :: _ =>
      match tbMatch ts [.When] with
      | (true, ts₁) =>
        match token.name.precedent with
        | .PostfixBP rbp => do
          let (adjective, ts₂) ← handle_adjective fuel ts₁ rbp
          .ok (.PostfixQ noun adjective, ts₂)
        | _ => .error (.LexicalError (wrongPrecedentMsg token))
      | (false, _) =>
        .error (.LexicalError ("[line " ++ toString token.line ++ "] Error at '"
          ++ token.lexeme ++ "': " ++ token.name.display ++ " is invalid postfix operator."))

/-- src: parser.rs, `handle_prefix` (the prefix token is already consumed). -/
def handle_prefixOp : Nat → List Token → Token → Except CompilerError (Phrase × List Token)
  | 0, _, _ => .error (.LexicalError "out of fuel")
  | fuel + 1, ts, token =>
    match token.name.precedent with
    | .PrefixBP bp => do
      let (op, ts₁) ← (do
        match token.name with
        | .Not => pure (PrefixOp.Not, ts)
        | .Minus => pure (PrefixOp.Negation, ts)
        | .The => do
          let (prefixTok, ts') ← tbConsume ts .Identifier
          pure (PrefixOp.Adjective prefixTok.lexeme, ts')
        | _ => pure (PrefixOp.None, ts) :
          Except CompilerError (PrefixOp × List Token))
      if op == PrefixOp.None then
        .error (.LexicalError ("[line " ++ toString token.line ++ "] Error at '"
          ++ token.lexeme ++ "': " ++ token.name.display ++ " is unrecognised prefix operator."))
      else do
        let (phrase, ts₂) ← handle_phrase fuel ts₁ bp
        .ok (.PrefixQ op phrase, ts₂)
    | _ =>
      .error (.LexicalError ("[line " ++ toString token.line ++ "] Error at '"
        ++ token.lexeme ++ "': " ++ token.name.display ++ " is invalid prefix operator."))

/-- src: parser.rs, `handle_adjective`: the `when`-rhs sub-grammar — atoms
only at the head, and infix operators build `Phrase::Condition` with
`Conjunction::from(op.name)`. -/
def handle_adjective : Nat → List Token → Nat → Except CompilerError (Phrase × List Token)
  | 0, _, _ => .error (.LexicalError "out of fuel")
  | fuel + 1, ts, precedent =>
    match ts with
    | [] => .error (.LexicalError "Unexpected EOF")
    | t :: rest =>
      match TokenCategory.ofToken t with
      | .Atom token => do
        let phrase ← handle_atom token
        adjectiveLoop fuel rest phrase precedent
      | .Op _ => .error (.LexicalError "Unsupported adjective as prefix")
      | .EOF => .error (.LexicalError "Unexpected EOF")

/-- The operator loop of `handle_adjective`. -/
def adjectiveLoop : Nat → List Token → Phrase → Nat → Except CompilerError (Phrase × List Token)
  | 0, _, _, _ => .error (.LexicalError "out of fuel")
  | fuel + 1, ts, phrase, precedent =>
    match ts with
    | [] => .ok (phrase, ts)
    | cur :: _ =>
      match TokenCategory.ofToken cur with
      | .EOF => .ok (phrase, ts)
      | .Op op => adjectiveLoopStep fuel ts phrase precedent op
      | .Atom tok =>
        if tok.name == TokenType.Identifier then
          adjectiveLoopStep fuel ts phrase precedent tok
        else
          .error (.LexicalError (invalidOperatorMsg tok))

/-- One iteration of the adjective loop (only infix operators advance). -/
def adjectiveLoopStep : Nat → List Token → Phrase → Nat → Token →
    Except CompilerError (Phrase × List Token)
  | 0, _, _, _, _ => .error (.LexicalError "out of fuel")
  | fuel + 1, ts, phrase, precedent, op =>
    match op.name.precedent with
    | .InfixBP lbp rbp =>
      if lbp < precedent then .ok (phrase, ts)
      else do
        let ts₁ := ts.tail
        let (object, ts₂) ← handle_adjective fuel ts₁ rbp
        adjectiveLoop fuel ts₂
          (.Condition phrase (Conjunction.fromTokenType op.name) object) precedent
    | _ => .ok (phrase, ts)

end

/-- src: parser.rs, `Parser::parse`'s statement loop, success path (see the
section comment). -/
def parseProgram : Nat → List Token → Except CompilerError (List Statement)
  | 0, _ => .error (.LexicalError "out of fuel")
  | fuel + 1, ts =>
    if tbAtEnd ts then .ok []
    else do
      let (s, ts') ← handle_prose fuel ts
      let ss ← parseProgram fuel ts'
      .ok (s :: ss)

/-! ## The interpreter (src: intepreter.rs)

Statement execution and phrase evaluation against an environment, state
passed explicitly.  A routine body runs in a fresh child of the call-site
environment (`Intepreter::within_scope`); when the child is dropped its outer
part carries the mutations back.  `fuel` decreases on every mutual call. -/

/-- src: intepreter.rs, `declare_verb`: bind the name to an
`Evaluation::Action` with a custom-instruction routine.  (The variable's
`Datatype::Verb` metadata is never read back; scopes here are name-keyed.) -/
def declare_verb (name : String) (subjectType : Option Datatype)
    (objectDeclarations : List Statement) (body : List Statement) (env : Env) :
    Except EvaluationError (Evaluation × Env) :=
  .ok (.Void, env.define name (.Action (Routine.new name subjectType objectDeclarations body)))

/-- src: intepreter.rs, `declare_adjective`: like a verb but
`Evaluation::Adjective` and no object declarations. -/
def declare_adjective (name : String) (subjectType : Datatype) (body : List Statement)
    (env : Env) : Except EvaluationError (Evaluation × Env) :=
  .ok (.Void, env.define name (.Adjective (Routine.new name (some subjectType) [] body)))

/-- src: intepreter.rs, `Intepreter::define_subject`: skip `Void`, else bind
`it` (the datatype tag on the variable is metadata; scopes are name-keyed). -/
def define_subject (env : Env) (subject : Evaluation) : Env :=
  match subject with
  | .Void => env
  | _ => env.define "it" subject

mutual

/-- src: intepreter.rs, `Intepreter::execute`: statement dispatch. -/
def executeStmt : Nat → Statement → Env → Except EvaluationError (Evaluation × Env)
  | 0, _, _ => .error (.new "out of fuel")
  | fuel + 1, stmt, env =>
    match stmt with
    | .Noun name superType body => declare_noun fuel name superType body env
    | .Verb name _henceType subjectType objectTypes body =>
      declare_verb name subjectType objectTypes body env
    | .Adjective name subjectType body => declare_adjective name subjectType body env
    | .So name datatype initializer => declare_so fuel name datatype initializer env
    | .Phrase phrase => evaluate fuel phrase env
    | .Hence phrase => evaluate_hence fuel phrase env

/-- src: intepreter.rs, `declare_noun`: body declarations evaluate in a fresh
child environment; the noun itself is bound in the outer environment.  (The
`Substantive` drops its captured environment — see the header.) -/
def declare_noun : Nat → String → Option Datatype → List Statement → Env →
    Except EvaluationError (Evaluation × Env)
  | 0, _, _, _, _ => .error (.new "out of fuel")
  | fuel + 1, name, superType, body, env => do
    let nounEnv := Env.within_scope env
    let nounEnv ← (match superType with
      | none => .ok nounEnv
      | some st =>
        match st with
        | .Noun superName => .ok (nounEnv.define "super" (.Noun ⟨superName⟩))
        | .Number => .ok (nounEnv.define "super" (.Number 0))
        | .Text => .ok (nounEnv.define "super" (.Text ""))
        | .Notion => .ok (nounEnv.define "super" (.Notion false))
        | .Verb vt =>
          .error (.new ("Invalid verb " ++ vt.display ++ " as super type for noun."))
        | .Adjective aName =>
          .error (.new ("Invalid adjective " ++ aName ++ " as super type for noun."))
        : Except EvaluationError Env)
    let nounEnv ← nounBodyLoop fuel body nounEnv
    match nounEnv with
    | .child _ outerEnv => .ok (.Void, outerEnv.define name (.Noun ⟨name⟩))
    | .root _ => .ok (.Void, env.define name (.Noun ⟨name⟩)) -- unreachable: ops keep the scope shape

/-- The noun-body statement loop of `declare_noun` (only declarations are
legal). -/
def nounBodyLoop : Nat → List Statement → Env → Except EvaluationError Env
  | 0, _, _ => .error (.new "out of fuel")
  | fuel + 1, stmts, env =>
    match stmts with
    | [] => .ok env
    | stmt :: rest =>
      match stmt with
      | .Noun name superType body => do
        let (_, env') ← declare_noun fuel name superType body env
        nounBodyLoop fuel rest env'
      | .Verb name _henceType subjectType objectTypes body => do
        let (_, env') ← declare_verb name subjectType objectTypes body env
        nounBodyLoop fuel rest env'
      | .Adjective name subjectType body => do
        let (_, env') ← declare_adjective name subjectType body env
        nounBodyLoop fuel rest env'
      | .So name datatype initializer => do
        let (_, env') ← declare_so fuel name datatype initializer env
        nounBodyLoop fuel rest env'
      | _ => .error (.new "Invalid statement in noun body.")

/-- src: intepreter.rs, `declare_so`: without an initializer bind the
datatype's zero value; with one, evaluate it, fail on `Void`, and bind
whatever value came back (no parity check against the declared datatype). -/
def declare_so : Nat → String → Datatype → Option Phrase → Env →
    Except EvaluationError (Evaluation × Env)
  | 0, _, _, _, _ => .error (.new "out of fuel")
  | fuel + 1, name, datatype, initializer, env =>
    match initializer with
    | none =>
      let defaultValue : Evaluation :=
        match datatype with
        | .Number => .Number 0
        | .Text => .Text ""
        | .Notion => .Notion false
        | .Noun _ => .Void
        | .Verb _ => .Void
        | .Adjective _ => .Void
      .ok (defaultValue, env.define name defaultValue)
    | some phrase => do
      let (result, env') ← evaluate fuel phrase env
      match result with
      | .Void => .error (.new "Unable to initialize so declaration with Void phrase.")
      | value => .ok (value, env'.define name value)

/-- src: intepreter.rs, `evaluate`: phrase dispatch. -/
def evaluate : Nat → Phrase → Env → Except EvaluationError (Evaluation × Env)
  | 0, _, _ => .error (.new "out of fuel")
  | fuel + 1, phrase, env =>
    match phrase with
    | .None => .error (.new "None phrase")
    | .Primary primitive => evaluate_primitive fuel primitive env
    | .PostfixQ noun adjective => evaluatePostfixQ fuel noun adjective env
    | .PrefixQ op noun => evaluatePrefixQ fuel op noun env
    | .Action subject verb object => evaluate_action fuel verb subject object env
    | .Condition left conjunction right => evaluate_condition fuel conjunction left right env

/-- src: intepreter.rs, `evaluate_hence`: `Void` is an error; a `Skip` is
wrapped unchanged in a `Conclusion`; otherwise the value's truthiness decides
between `Conclusion(value)` and `Conclusion(Skip(value))` — and a truthiness
error (nouns, actions, adjectives) propagates. -/
def evaluate_hence : Nat → Phrase → Env → Except EvaluationError (Evaluation × Env)
  | 0, _, _ => .error (.new "out of fuel")
  | fuel + 1, phrase, env => do
    let (henceValue, env') ← evaluate fuel phrase env
    match henceValue with
    | .Void => .error (.new "Invalid void as hence value")
    | .Skip s => .ok (.Conclusion (.Skip s), env')
    | value =>
      match evaluate_truth value with
      | .error e => .error e
      | .ok (.Notion condition) =>
        if condition then .ok (.Conclusion value, env')
        else .ok (.Conclusion (.Skip value), env')
      | .ok _ => .ok (.Conclusion value, env')

/-- src: intepreter.rs, `evaluate_primitive`.  (`Primitive::Type` exists in
the snapshot's primitive.rs but not in the revision intepreter.rs matches on,
and no parser path produces it; it is an error here.) -/
def evaluate_primitive : Nat → Primitive → Env → Except EvaluationError (Evaluation × Env)
  | 0, _, _ => .error (.new "out of fuel")
  | fuel + 1, primitive, env =>
    match primitive with
    | .Number value => .ok (.Number (parseF32 value), env)
    | .Text value => .ok (.Text value, env)
    | .True => .ok (.Notion true, env)
    | .False => .ok (.Notion false, env)
    | .It =>
      match env.get "it" with
      | some value => .ok (value, env)
      | none => .error (.new "Undefined variable \"it\".")
    | .Collective phrases => do
      let (values, env') ← evalPhraseList fuel phrases env
      .ok (.Collective values, env')
    | .Variable name =>
      match env.get name with
      | some value => .ok (value, env)
      | none => .error (.new ("Undefined variable \"" ++ name ++ "\"."))
    | .Type _ => .error (.new "None phrase")

/-- Elementwise evaluation of a collective's phrases against the shared
environment. -/
def evalPhraseList : Nat → List Phrase → Env → Except EvaluationError (List Evaluation × Env)
  | 0, _, _ => .error (.new "out of fuel")
  | fuel + 1, phrases, env =>
    match phrases with
    | [] => .ok ([], env)
    | p :: ps => do
      let (v, env') ← evaluate fuel p env
      let (vs, env'') ← evalPhraseList fuel ps env'
      .ok (v :: vs, env'')

/-- src: intepreter.rs, `evaluate_postfix`: evaluate the subject, then the
adjective, then apply the qualifier. -/
def evaluatePostfixQ : Nat → Phrase → Phrase → Env → Except EvaluationError (Evaluation × Env)
  | 0, _, _, _ => .error (.new "out of fuel")
  | fuel + 1, subjectPhrs, adjectivePhrs, env => do
    let (subject, env') ← evaluate fuel subjectPhrs env
    let (adjective, env'') ← evaluate fuel adjectivePhrs env'
    evaluate_qualifier fuel subject adjective env''

/-- src: intepreter.rs, `evaluate_prefix`. -/
def evaluatePrefixQ : Nat → PrefixOp → Phrase → Env → Except EvaluationError (Evaluation × Env)
  | 0, _, _, _ => .error (.new "out of fuel")
  | fuel + 1, op, subjectPhrs, env =>
    match op with
    | .Not => do
      let (v, env') ← evaluate fuel subjectPhrs env
      match v with
      | .Void => .error (.new "Invalid not prefix for void")
      | .Skip noun => .ok (noun, env')
      | .Conclusion _ => .error (.new "Invalid not prefix for conclusion")
      | .Number _ => .error (.new "Invalid not prefix for number")
      | .Text _ => .error (.new "Invalid not prefix for text")
      | .Notion value => .ok (.Notion (!value), env')
      | .Collective _ => .error (.new "Invalid not prefix for collective")
      | .Noun s => .ok (.Skip (.Noun s), env')
      | .Action routine => .error (.new ("Invalid not prefix for action " ++ routine.name))
      | .Adjective routine =>
        .error (.new ("No implementation of not prefix for adjective " ++ routine.name))
    | .Negation => do
      let (v, env') ← evaluate fuel subjectPhrs env
      match v with
      | .Void => .error (.new "Invalid negation prefix for void")
      | .Skip _ => .error (.new "Invalid negation prefix for skip")
      | .Conclusion _ => .error (.new "Invalid negation prefix for conclusion")
      | .Number value => .ok (.Number (-value), env')
      | .Text _ => .error (.new "Invalid negation prefix for text")
      | .Notion _ => .error (.new "Invalid negation prefix for boolean")
      | .Collective _ => .error (.new "Invalid negation prefix for collective")
      | .Noun substantive =>
        .error (.new ("Invalid negation prefix for " ++ substantive.name ++ "."))
      | .Action routine =>
        .error (.new ("Invalid negation prefix for action " ++ routine.name ++ "."))
      | .Adjective routine =>
        .error (.new ("Invalid negation prefix for adjective " ++ routine.name ++ "."))
    | .Adjective name =>
      match env.get name with
      | some adjective => do
        let (subject, env') ← evaluate fuel subjectPhrs env
        evaluate_qualifier fuel subject adjective env'
      | none => .error (.new ("Undefined adjective " ++ name ++ "."))
    | .None => .error (.new "None prefix invalid")

/-- src: intepreter.rs, `evaluate_action`: subject and object are both
evaluated first; arithmetic verbs need two numbers; `Assign` short-circuits
on a `Skip` subject or object and otherwise writes through
`Environment::assign` using the *subject phrase's* variable name; a named
action short-circuits on `Skip` the same way, then resolves the name. -/
def evaluate_action : Nat → Verb → Option Phrase → Option Phrase → Env →
    Except EvaluationError (Evaluation × Env)
  | 0, _, _, _, _ => .error (.new "out of fuel")
  | fuel + 1, verb, subjectPhrs, objectPhrs, env => do
    let (subject, env₁) ← (match subjectPhrs with
      | some p => evaluate fuel p env
      | none => .ok (.Void, env) : Except EvaluationError (Evaluation × Env))
    let (object, env₂) ← (match objectPhrs with
      | some p => evaluate fuel p env₁
      | none => .ok (.Void, env₁) : Except EvaluationError (Evaluation × Env))
    match verb with
    | .Divide | .Multiply | .Subtract | .Add =>
      match subject, object with
      | .Number lvalue, .Number rvalue =>
        match verb with
        | .Divide => .ok (.Number (lvalue / rvalue), env₂)
        | .Multiply => .ok (.Number (lvalue * rvalue), env₂)
        | .Subtract => .ok (.Number (lvalue - rvalue), env₂)
        | _ => .ok (.Number (lvalue + rvalue), env₂)
      | _, _ => .error (.new "Invalid operand not as numbers")
    | .Assign =>
      match subject with
      | .Skip s => .ok (.Skip s, env₂)
      | _ =>
        match object with
        | .Skip _ => .ok (subject, env₂)
        | _ =>
          match subjectPhrs with
          | some (.Primary (.Variable name)) =>
            (match env₂.assign name object with
            | .error varName => .error (.new ("Undefined variable " ++ varName ++ "."))
            | .ok env₃ => .ok (object, env₃))
          | some _ => .error (.new "Invalid assignment target")
          | none => .error (.new "Invalid assigning to none")
    | .Action name =>
      match subject with
      | .Skip s => .ok (.Skip s, env₂)
      | _ =>
        match object with
        | .Skip _ => .ok (subject, env₂)
        | _ =>
          match env₂.get name with
          | some (.Action routine) => evaluate_routine fuel subject object routine env₂
          | some _ => .error (.new ("Invalid action " ++ name ++ "."))
          | none => .error (.new ("Undefined verb " ++ name ++ "."))
    | .None => .error (.new "None verb invalid")

/-- src: intepreter.rs, `evaluate_condition`.  Comparisons and equality
evaluate both sides and collect both errors when the left side fails; `and`/
`or` short-circuit on the left side's truthiness.  (When the left side fails,
the source still evaluates the right side against the shared environment; the
embedding reuses the entry environment there — the difference is observable
only through mutations of an already-failing operand, which nothing below
exercises.) -/
def evaluate_condition : Nat → Conjunction → Phrase → Phrase → Env →
    Except EvaluationError (Evaluation × Env)
  | 0, _, _, _, _ => .error (.new "out of fuel")
  | fuel + 1, conjunction, left, right, env =>
    match conjunction with
    | .Greater | .GreaterEqual | .Less | .LessEqual =>
      (match evaluate fuel left env with
      | .ok (lv, env₁) =>
        (match evaluate fuel right env₁ with
        | .ok (rv, env₂) =>
          (match lv, rv with
          | .Number lvalue, .Number rvalue =>
            (match conjunction with
            | .Greater => .ok (.Notion (decide (lvalue > rvalue)), env₂)
            | .GreaterEqual => .ok (.Notion (decide (lvalue ≥ rvalue)), env₂)
            | .Less => .ok (.Notion (decide (lvalue < rvalue)), env₂)
            | _ => .ok (.Notion (decide (lvalue ≤ rvalue)), env₂))
          | _, _ => .error (.new "Invalid comparison operand not as numbers"))
        | .error _ => .error (.new "Invalid comparison operand not as numbers"))
      | .error lerr =>
        (match evaluate fuel right env with
        | .ok _ => .error ((EvaluationError.new "Invalid comparison operand not as numbers").concat lerr)
        | .error rerr =>
          .error ((EvaluationError.new "Invalid comparison operand not as numbers").concat
            (lerr.concat rerr))))
    | .Equal | .NotEqual =>
      (match evaluate fuel left env with
      | .ok (lv, env₁) =>
        (match evaluate fuel right env₁ with
        | .ok (rv, env₂) =>
          (match conjunction with
          | .Equal => .ok (.Notion (Evaluation.equal lv rv), env₂)
          | _ => .ok (.Notion (!Evaluation.equal lv rv), env₂))
        | .error _ => .error (.new "Invalid equality operand"))
      | .error lerr =>
        (match evaluate fuel right env with
        | .ok _ => .error ((EvaluationError.new "Invalid equality operand").concat lerr)
        | .error rerr =>
          .error ((EvaluationError.new "Invalid equality operand").concat (lerr.concat rerr))))
    | .And => do
      let (lv, env₁) ← evaluate fuel left env
      let result ← evaluate_truth lv
      match result with
      | .Notion value =>
        if !value then .ok (.Notion value, env₁)
        else do
          let (rv, env₂) ← evaluate fuel right env₁
          let result' ← evaluate_truth rv
          match result' with
          | .Notion v' => .ok (.Notion v', env₂)
          | _ => .error (.new "Invalid logic operand")
      | _ => .error (.new "Invalid logic operand")
    | .Or => do
      let (lv, env₁) ← evaluate fuel left env
      let result ← evaluate_truth lv
      match result with
      | .Notion value =>
        if value then .ok (.Notion value, env₁)
        else do
          let (rv, env₂) ← evaluate fuel right env₁
          let result' ← evaluate_truth rv
          match result' with
          | .Notion v' => .ok (.Notion v', env₂)
          | _ => .error (.new "Invalid logic operand")
      | _ => .error (.new "Invalid logic operand")
    | .None => .error (.new "None conjunction invalid")

/-- src: intepreter.rs, `evaluate_qualifier`: a true notion passes the
subject through, a false one wraps it in `Skip`, an adjective routine is
invoked with the subject and no object, a `Skip` adjective skips the
subject. -/
def evaluate_qualifier : Nat → Evaluation → Evaluation → Env →
    Except EvaluationError (Evaluation × Env)
  | 0, _, _, _ => .error (.new "out of fuel")
  | fuel + 1, subject, adjective, env =>
    match adjective with
    | .Notion value =>
      if value then .ok (subject, env) else .ok (.Skip subject, env)
    | .Adjective routine => evaluate_routine fuel subject .Void routine env
    | .Skip _ => .ok (.Skip subject, env)
    | .Void => .error (.new "Invalid void as adjective")
    | .Conclusion _ => .error (.new "Invalid conclusion as adjective")
    | .Number _ => .error (.new "Invalid number as adjective")
    | .Text _ => .error (.new "Invalid text as adjective")
    | .Collective _ => .error (.new "Invalid collective as adjective")
    | .Noun substantive => .error (.new ("Invalid noun " ++ substantive.name ++ " as adjective"))
    | .Action routine => .error (.new ("Invalid action " ++ routine.name ++ " as adjective"))

/-- src: intepreter.rs, `evaluate_routine`: a fresh child of the call-site
environment; validate the subject, bind `it`, validate the object, bind the
parameters, then run the body, stopping at the first `Conclusion`. -/
def evaluate_routine : Nat → Evaluation → Evaluation → Routine → Env →
    Except EvaluationError (Evaluation × Env)
  | 0, _, _, _, _ => .error (.new "out of fuel")
  | fuel + 1, subject, object, routine, env => do
    let renv := Env.within_scope env
    let _ ← routine.validate_subject subject
    let renv := define_subject renv subject
    let _ ← validateObject fuel routine object renv
    let renv ← (match object with
      | .Void => .ok renv
      | .Skip _ => .ok renv
      | obj => define_object fuel renv obj routine.objectDeclarations
      : Except EvaluationError Env)
    let (value, renv') ← runBody fuel routine.instructions renv
    match renv' with
    | .child _ outerEnv => .ok (value, outerEnv)
    | .root _ => .ok (value, env) -- unreachable: ops keep the scope shape

/-- src: intepreter.rs, `evaluate_routine`'s statement loop (lines 432-438):
execute each instruction in order; the first `Conclusion` stops the loop and
its inner value is returned; otherwise the routine yields `Void`. -/
def runBody : Nat → List Statement → Env → Except EvaluationError (Evaluation × Env)
  | 0, _, _ => .error (.new "out of fuel")
  | fuel + 1, stmts, env =>
    match stmts with
    | [] => .ok (.Void, env)
    | stmt :: rest => do
      let (eval, env') ← executeStmt fuel stmt env
      match eval with
      | .Conclusion val => .ok (val, env')
      | _ => runBody fuel rest env'

/-- src: intepreter.rs, `Intepreter::define_object`: `Void` objects are
invalid; a collective is zipped positionally with the parameter
declarations, a single value with the first one. -/
def define_object : Nat → Env → Evaluation → List Statement → Except EvaluationError Env
  | 0, _, _, _ => .error (.new "out of fuel")
  | fuel + 1, env, object, parameters =>
    match object with
    | .Void => .error (.new "Invalid object for definition.")
    | .Collective objs => defineObjectLoop fuel (parameters.zip objs) env
    | obj => defineObjectLoop fuel (parameters.zip [obj]) env

/-- The parameter-binding loop of `define_object`: declare each `So`
parameter, then assign the corresponding object element to it. -/
def defineObjectLoop : Nat → List (Statement × Evaluation) → Env → Except EvaluationError Env
  | 0, _, _ => .error (.new "out of fuel")
  | fuel + 1, arguments, env =>
    match arguments with
    | [] => .ok env
    | (param, obj) :: rest =>
      match param with
      | .So name datatype initializer => do
        let (_, env₁) ← declare_so fuel name datatype initializer env
        match env₁.assign name obj with
        | .error varName => .error (.new ("Undefined variable " ++ varName ++ "."))
        | .ok env₂ => defineObjectLoop fuel rest env₂
      | _ => .error (.new "Invalid param statement")

/-- Modelled from the spec: the revision of routine.rs that intepreter.rs
calls (`validate_object(&object, &mut intepreter)`) is not in the snapshot;
per spec §4.5 step 2, build an expected `Collective` (or single value, or
`Void`) from the routine's parameter defaults and check `parity` against the
actual object, reporting `"Invalid object(s) for action X, …"` on
mismatch. -/
def validateObject : Nat → Routine → Evaluation → Env → Except EvaluationError Unit
  | 0, _, _, _ => .error (.new "out of fuel")
  | fuel + 1, routine, object, env => do
    let defaults ← parameterDefaults fuel routine.objectDeclarations env
    let expected : Evaluation :=
      match defaults with
      | [] => .Void
      | [v] => v
      | vs => .Collective vs
    match expected.parity object with
    | .ok _ => .ok ()
    | .error msg =>
      .error (.new ("Invalid object(s) for action " ++ routine.name ++ ", " ++ msg))

/-- Modelled from the spec (§3 `Routine.object_parameters: [Variable+default]`):
each `So` parameter declaration's default value, evaluated against the
routine environment without keeping its bindings. -/
def parameterDefaults : Nat → List Statement → Env → Except EvaluationError (List Evaluation)
  | 0, _, _ => .error (.new "out of fuel")
  | fuel + 1, decls, env =>
    match decls with
    | [] => .ok []
    | .So name datatype initializer :: rest => do
      let (v, _) ← declare_so fuel name datatype initializer env
      let vs ← parameterDefaults fuel rest env
      .ok (v :: vs)
    | _ :: _ => .error (.new "Invalid param statement")

end

/-! ## The scanner in the snapshot (src: scanner.rs)

The scanner.rs in the tree is an earlier, Lox-style revision: `//` comments,
quoted `String` literals, *unbracketed* digit runs as numbers, and token
variants (`Semicolon`, `Bang`, `BangEqual`, `EqualEqual`, `String`) that the
snapshot's token.rs `TokenType` does not even declare.  It is embedded as
written, over its own token type.  Rust indexes the source by bytes
(`source.get(pos..pos+1)`); the model uses a character list, which coincides
on the ASCII sources the theorems use.  Loops carry fuel (never exhausted
below). -/

namespace LegacyScanner

/-- The token variants scanner.rs refers to (several are absent from
token.rs's `TokenType`). -/
inductive LegacyTokenType where
  | None
  | LeftParen
  | RightParen
  | LeftBrace
  | RightBrace
  | Comma
  | Dot
  | Minus
  | Plus
  | Semicolon
  | Star
  | Bang
  | BangEqual
  | Equal
  | EqualEqual
  | Less
  | LessEqual
  | Greater
  | GreaterEqual
  | Slash
  | String
  | Number
  | Identifier
  | EOF
deriving DecidableEq, Repr

/-- scanner.rs's `Token { name, lexeme, literal, line }` (this revision keeps
a separate normalized `literal`). -/
structure LegacyToken where
  name : LegacyTokenType
  lexeme : String
  literal : Option String
  line : Nat
deriving DecidableEq, Repr

/-- `Scanner::is_at_end`. -/
def is_at_end (source : List Char) (current : Nat) : Bool :=
  current ≥ source.length

/-- `Scanner::extract_symbol_at`. -/
def extract_symbol_at (source : List Char) (pos : Nat) : Option Char :=
  source.get? pos

/-- `Scanner::extract_text`: the `start..current` slice. -/
def extract_text (source : List Char) (fromIdx toIdx : Nat) : Option String :=
  if fromIdx ≤ toIdx && toIdx ≤ source.length then
    some (String.mk ((source.drop fromIdx).take (toIdx - fromIdx)))
  else
    none

/-- `Scanner::peek_next`. -/
def peek_next (source : List Char) (current : Nat) (symbol : Char) : Bool :=
  if is_at_end source current then false
  else extract_symbol_at source current == some symbol

/-- `Scanner::match_next`: consume iff the next character matches. -/
def match_next (source : List Char) (current : Nat) (symbol : Char) : Bool × Nat :=
  if peek_next source current symbol then (true, current + 1) else (false, current)

/-- `Scanner::is_digit` (`char::is_digit(10)`). -/
def is_digit (c : Char) : Bool := c.isDigit

/-- `Scanner::is_alpha` (alphabetic or `_`; ASCII here). -/
def is_alpha (c : Char) : Bool := c.isAlpha || c == '_'

/-- `Scanner::is_alphanumeric`. -/
def is_alphanumeric (c : Char) : Bool := is_alpha c || is_digit c

/-- `Option<char>::unwrap_or_default()`: the NUL character. -/
def charOrNul (c : Option Char) : Char := c.getD (Char.ofNat 0)

/-- The `while is_digit(peek) { current += 1 }` loop of `handle_number`. -/
def digitLoop : Nat → List Char → Nat → Nat
  | 0, _, current => current
  | fuel + 1, source, current =>
    if is_digit (charOrNul (extract_symbol_at source current)) then
      digitLoop fuel source (current + 1)
    else current

/-- src: scanner.rs, `handle_number`: a digit run, then optionally `.` and
another digit run — no brackets anywhere. -/
def handle_number (fuel : Nat) (source : List Char) (current : Nat) :
    LegacyTokenType × Nat :=
  let current := digitLoop fuel source current
  if extract_symbol_at source current == some '.'
      && is_digit (charOrNul (extract_symbol_at source (current + 1))) then
    (.Number, digitLoop fuel source (current + 1 + 1))
  else
    (.Number, current)

/-- The scan loop of `handle_string` (newlines allowed, incrementing the
line). -/
def stringLoop : Nat → List Char → Nat → Nat → Nat × Nat
  | 0, _, current, line => (current, line)
  | fuel + 1, source, current, line =>
    if !peek_next source current '\"' && !is_at_end source current then
      let line := if peek_next source current '\n' then line + 1 else line
      stringLoop fuel source (current + 1) line
    else (current, line)

/-- src: scanner.rs, `handle_string`: unterminated text is one error and no
token. -/
def handle_string (fuel : Nat) (source : List Char) (current line errorCount : Nat) :
    LegacyTokenType × Nat × Nat × Nat :=
  let (current, line) := stringLoop fuel source current line
  if is_at_end source current then (.None, current, line, errorCount + 1)
  else (.String, current + 1, line, errorCount)

/-- `Scanner::handle_identifier`: an alphanumeric run matched against the
keyword table (passed as a function — scanner.rs takes it from a `Token`
revision that is not the snapshot's). -/
def identifierLoop : Nat → List Char → Nat → Nat
  | 0, _, current => current
  | fuel + 1, source, current =>
    if is_alphanumeric (charOrNul (extract_symbol_at source current)) then
      identifierLoop fuel source (current + 1)
    else current

def handle_identifier (fuel : Nat) (source : List Char) (start current : Nat)
    (keywords : String → Option LegacyTokenType) : LegacyTokenType × Nat :=
  let current := identifierLoop fuel source current
  let text := (extract_text source start current).getD ""
  ((keywords text).getD .Identifier, current)

/-- The `while !peek('\n') && !at_end` loop of `skip_comment`. -/
def commentLoop : Nat → List Char → Nat → Nat
  | 0, _, current => current
  | fuel + 1, source, current =>
    if !peek_next source current '\n' && !is_at_end source current then
      commentLoop fuel source (current + 1)
    else current

/-- src: scanner.rs, `scan_token`: one token starting at `current`; returns
the token type and the updated `current`, `line` and `error_count`.  Note:
`[` and `]` fall to the "Unexpected character" arm. -/
def scan_token (fuel : Nat) (source : List Char) (start current line errorCount : Nat)
    (keywords : String → Option LegacyTokenType) : LegacyTokenType × Nat × Nat × Nat :=
  if is_at_end source current then (.EOF, current, line, errorCount)
  else
    match extract_symbol_at source current with
    | some '(' => (.LeftParen, current + 1, line, errorCount)
    | some ')' => (.RightParen, current + 1, line, errorCount)
    | some '{' => (.LeftBrace, current + 1, line, errorCount)
    | some '}' => (.RightBrace, current + 1, line, errorCount)
    | some ',' => (.Comma, current + 1, line, errorCount)
    | some '.' => (.Dot, current + 1, line, errorCount)
    | some '-' => (.Minus, current + 1, line, errorCount)
    | some '+' => (.Plus, current + 1, line, errorCount)
    | some ';' => (.Semicolon, current + 1, line, errorCount)
    | some '*' => (.Star, current + 1, line, errorCount)
    | some '!' =>
      (match match_next source (current + 1) '=' with
      | (true, c) => (.BangEqual, c, line, errorCount)
      | (false, c) => (.Bang, c, line, errorCount))
    | some '=' =>
      (match match_next source (current + 1) '=' with
      | (true, c) => (.EqualEqual, c, line, errorCount)
      | (false, c) => (.Equal, c, line, errorCount))
    | some '<' =>
      (match match_next source (current + 1) '=' with
      | (true, c) => (.LessEqual, c, line, errorCount)
      | (false, c) => (.Less, c, line, errorCount))
    | some '>' =>
      (match match_next source (current + 1) '=' with
      | (true, c) => (.GreaterEqual, c, line, errorCount)
      | (false, c) => (.Greater, c, line, errorCount))
    | some '/' =>
      (match match_next source (current + 1) '/' with
      | (true, c) => (.None, commentLoop fuel source c, line, errorCount)
      | (false, c) => (.Slash, c, line, errorCount))
    | some ' ' => (.None, current + 1, line, errorCount)
    | some '\r' => (.None, current + 1, line, errorCount)
    | some '\t' => (.None, current + 1, line, errorCount)
    | some '\n' => (.None, current + 1, line + 1, errorCount)
    | some '\"' => handle_string fuel source (current + 1) line errorCount
    | some c =>
      if is_digit c then
        let (token, current') := handle_number fuel source (current + 1)
        (token, current', line, errorCount)
      else if is_alpha c then
        let (token, current') := handle_identifier fuel source start (current + 1) keywords
        (token, current', line, errorCount)
      else
        (.None, current + 1, line, errorCount + 1)
    | none => (.None, current + 1, line, errorCount + 1)

/-- src: scanner.rs, `add_token`: `None` adds nothing; `String` literals are
stripped of their first and last character; `Number` literals are parsed and
re-rendered (`{}` when the fractional part exceeds `f32::EPSILON`, `{:.1}`
otherwise). -/
def add_token (tokens : List LegacyToken) (token : LegacyTokenType)
    (text : Option String) (line : Nat) : List LegacyToken :=
  if token == LegacyTokenType.None then tokens
  else
    let literal := text.bind (fun t =>
      if token == LegacyTokenType.String then
        some (String.mk ((t.toList.drop 1).take (t.length - 2)))
      else if token == LegacyTokenType.Number then
        some (normalizeNumber (parseF32 t))
      else
        none)
    tokens ++ [{ name := token, lexeme := text.getD "", literal := literal, line := line }]

/-- The `while !is_at_end` loop of `Scanner::tokenize`. -/
def tokenizeLoop : Nat → List Char → (String → Option LegacyTokenType) →
    Nat → Nat → List LegacyToken → Nat → List LegacyToken × Nat × Nat
  | 0, _, _, _, line, tokens, errorCount => (tokens, errorCount, line)
  | fuel + 1, source, keywords, current, line, tokens, errorCount =>
    if is_at_end source current then (tokens, errorCount, line)
    else
      let start := current
      let (token, current', line', errorCount') :=
        scan_token fuel source start current line errorCount keywords
      let text := extract_text source start current'
      let tokens' := add_token tokens token text line'
      tokenizeLoop fuel source keywords current' line' tokens' errorCount'

/-- src: scanner.rs, `Scanner::tokenize`: scan every lexeme, then append the
`EOF` token; returns the tokens with the error count. -/
def tokenize (fuel : Nat) (source : String)
    (keywords : String → Option LegacyTokenType) : List LegacyToken × Nat :=
  let (tokens, errorCount, line) := tokenizeLoop fuel source.toList keywords 0 1 [] 0
  (add_token tokens .EOF none line, errorCount)

end LegacyScanner

/-! ## The intermediate cache (src: intermediate.rs, compiler.rs)

The filesystem and `bincode` are passed in as data: `readBytes` is the
outcome of `fs::read`, `deserialize` of `bincode::deserialize`.  `save_for`
is modelled as the intermediate the function hands to it (second component of
`to_token`'s result). -/

/-- src: intermediate.rs, `Intermediate { hash, tokens }`. -/
structure Intermediate where
  hash : List Nat
  tokens : List Token
deriving Repr

/-- src: intermediate.rs, `impl TryFrom<&Source> for Intermediate`: read the
intermediate file, deserialize it, and accept iff the stored hash equals the
source's hash (a mismatch returns `Err(CompilerError::None)`); I/O and
deserialization failures convert to `SourceError`s. -/
def Intermediate.tryFromSource (readBytes : Except String (List Nat))
    (deserialize : List Nat → Except String Intermediate)
    (sourceHash : List Nat) : Except CompilerError Intermediate :=
  match readBytes with
  | .error e => .error (.SourceError e)
  | .ok bytes =>
    match deserialize bytes with
    | .error e => .error (.SourceError e)
    | .ok intermediate =>
      if sourceHash == intermediate.hash then .ok intermediate
      else .error .None

/-- src: compiler.rs, `to_token`: a successful `Intermediate::try_from` is
used as-is (no save); on *any* failure the lexer runs on the source's content
and the fresh `{hash, tokens}` intermediate is saved.  The lexer is the
`tokenize` parameter (the `Scanner` revision compiler.rs calls — taking
content and hash and exposing `intermediate()` — is not in the snapshot;
modelled from the spec §4.3 store path: serialize `{hash, tokens}`).  The
result pairs the intermediate whose tokens compilation proceeds with, and
the intermediate handed to `save_for`, if any. -/
def to_token (readBytes : Except String (List Nat))
    (deserialize : List Nat → Except String Intermediate)
    (sourceHash : List Nat) (content : String)
    (tokenize : String → List Token) : Intermediate × Option Intermediate :=
  match Intermediate.tryFromSource readBytes deserialize sourceHash with
  | .ok intermediate => (intermediate, none)
  | .error _ =>
    let fresh : Intermediate := ⟨sourceHash, tokenize content⟩
    (fresh, some fresh)

/-! ## Concrete programs and specification-side helpers

Inputs for the end-to-end theorems (token lexemes are in the normalized form
`TokenCollection::add` produces: `"10.0"`, `"5.0"`, …), and small
specification-side definitions the environment/parity theorems compare the
source functions against. -/

/-- A token on line 1. -/
def mkToken (name : TokenType) (lexeme : String) : Token := ⟨name, lexeme, 1⟩

/-- The token stream of the phrase `[10] add [5]` followed by its sentence
terminator. -/
def c1PhraseTokens : List Token :=
  [mkToken .Number "10.0", mkToken .Identifier "add", mkToken .Number "5.0",
   mkToken .Dot ".", mkToken .EOF ""]

/-- The `add` verb of spec scenario 3: `verb add is Number for Number when so
other is Number { hence it + other. }`. -/
def addRoutine : Routine :=
  Routine.new "add" (some .Number) [.So "other" .Number none]
    [.Hence (.Action (some (.Primary .It)) .Add (some (.Primary (.Variable "other"))))]

/-- An environment binding `add` to its routine, as `declare_verb` would. -/
def c1Env : Env := Env.root [("add", .Action addRoutine)]

/-- The token stream of spec scenario 2:
`so y is Number as [0]. y as [5] when false.` -/
def c3Tokens : List Token :=
  [mkToken .So "so", mkToken .Identifier "y", mkToken .Is "is",
   mkToken (.Type .Number) "number", mkToken .As "as", mkToken .Number "0.0",
   mkToken .Dot ".",
   mkToken .Identifier "y", mkToken .As "as", mkToken .Number "5.0",
   mkToken .When "when", mkToken .False "false", mkToken .Dot ".",
   mkToken .EOF ""]

/-- The statement `so y is Number as [0].` as parsed. -/
def c3Stmt₁ : Statement := .So "y" .Number (some (.Primary (.Number "0.0")))

/-- The statement `y as [5] when false.` as parsed: the `when` postfix wraps
the whole assignment (`as` has binding power (5,4), `when` only 3). -/
def c3Stmt₂ : Statement :=
  .Phrase (.PostfixQ
    (.Action (some (.Primary (.Variable "y"))) .Assign (some (.Primary (.Number "5.0"))))
    (.Primary .False))

/-- The token stream of spec scenario 5:
`so a is Notion as [2] < [3] and [5] == [5].` -/
def c4Tokens : List Token :=
  [mkToken .So "so", mkToken .Identifier "a", mkToken .Is "is",
   mkToken (.Type .Notion) "notion", mkToken .As "as",
   mkToken .Number "2.0", mkToken .Less "<", mkToken .Number "3.0",
   mkToken .And "and", mkToken .Number "5.0", mkToken .Equal "==",
   mkToken .Number "5.0", mkToken .Dot ".", mkToken .EOF ""]

/-- What the parser makes of that initializer: every conjunction became a
`Phrase::Action` with `Verb::None` (`Verb::from` maps no conjunction token to
a verb). -/
def c4Initializer : Phrase :=
  .Action
    (some (.Action (some (.Primary (.Number "2.0"))) .None (some (.Primary (.Number "3.0")))))
    .None
    (some (.Action (some (.Primary (.Number "5.0"))) .None (some (.Primary (.Number "5.0")))))

/-- The same initializer as the `Phrase::Condition` tree the interpreter's
`evaluate_condition` handles (what the `when`-rhs sub-grammar would build). -/
def c4ConditionTree : Phrase :=
  .Condition
    (.Condition (.Primary (.Number "2.0")) .Less (.Primary (.Number "3.0")))
    .And
    (.Condition (.Primary (.Number "5.0")) .Equal (.Primary (.Number "5.0")))

/-- Specification-side view of `Environment::assign`: update the innermost
scope that defines the name, leave every other scope untouched, `none` when
no scope in the chain defines it. -/
def assignScopes : List Scope → String → Evaluation → Option (List Scope)
  | [], _, _ => none
  | s :: rest, n, v =>
    if scopeContains s n then some (scopeInsert s n v :: rest)
    else (assignScopes rest n v).map (fun rest' => s :: rest')

mutual

/-- The `Action`/`Adjective`-free typed fragment of `Evaluation`: numbers,
text, notions, nouns, and collectives of such.  The amended C7 claim states
`parity`'s reflexivity on exactly this fragment. -/
def isSimpleTyped : Evaluation → Bool
  | .Number _ => true
  | .Text _ => true
  | .Notion _ => true
  | .Noun _ => true
  | .Collective es => listSimpleTyped es
  | _ => false
termination_by structural e => e

def listSimpleTyped : List Evaluation → Bool
  | [] => true
  | e :: es => isSimpleTyped e && listSimpleTyped es
termination_by structural es => es

end

/-- The routine value of the C7 counterexample: a parameterless verb. -/
def c7Routine : Routine := Routine.new "f" none [] []

/-- The environment of the C2 counterexample: `n` bound to a noun instance. -/
def c2Env : Env := Env.root [("n", .Noun ⟨"Point"⟩)]

/-! ## Theorems -/

/-- C1: the claim says the parser's Action phrase for `[10] add [5]` carries
the verb name `add` and that evaluation invokes the `add` routine yielding
`Number(15.0)`.  On the code, `Verb::from(TokenType::Identifier)` yields the
placeholder `Action("<Action>")` — the identifier's lexeme never reaches the
verb — so the parsed phrase carries `"<Action>"` and evaluating it fails with
`"Undefined verb <Action>."` even though `add` is bound to its routine in the
environment. -/
theorem c1_action_verb_is_placeholder :
    handle_phrase 20 c1PhraseTokens 0 =
      .ok (.Action (some (.Primary (.Number "10.0"))) (.Action "<Action>")
        (some (.Primary (.Number "5.0"))), [mkToken .Dot ".", mkToken .EOF ""])
    ∧ Verb.fromTokenType .Identifier = .Action "<Action>"
    ∧ evaluate 30 (.Action (some (.Primary (.Number "10.0"))) (.Action "<Action>")
        (some (.Primary (.Number "5.0")))) c1Env =
      .error (.new "Undefined verb <Action>.")
    ∧ c1Env.get "add" = some (.Action addRoutine) := by
  refine ⟨?_, rfl, ?_, ?_⟩ <;> with_unfolding_all rfl

/-- C3: the claim says `y as [5] when false.` leaves `y` at `Number(0.0)`.
On the code, `when` has binding power 3 and `as` (5,4), so the statement
parses as `(y as [5]) when false`; `evaluate_postfix` evaluates the subject —
the assignment — before the qualifier, so `y` is mutated to `Number(5.0)` and
the statement yields `Skip(Number(5.0))`. -/
theorem c3_when_false_assignment_mutates :
    parseProgram 30 c3Tokens = .ok [c3Stmt₁, c3Stmt₂]
    ∧ (do
        let (_, env₁) ← executeStmt 30 c3Stmt₁ Env.empty
        executeStmt 30 c3Stmt₂ env₁) =
      .ok (.Skip (.Number 5), Env.root [("y", .Number 5)])
    ∧ (Env.root [("y", .Number 5)]).get "y" = some (.Number 5) := by
  refine ⟨?_, ?_, ?_⟩ <;> with_unfolding_all rfl

/-- C4: the claim says the initializer `[2] < [3] and [5] == [5]` evaluates
to `Notion(true)`.  On the code, `handle_phrase`'s infix loop builds a
`Phrase::Action` for *every* infix operator, and `Verb::from` maps `<`, `and`
and `==` to `Verb::None`, so the initializer parses into nested `Verb::None`
actions and executing the declaration fails with `"None verb invalid"` —
while the interpreter's `evaluate_condition`, fed the corresponding
`Phrase::Condition` tree (which only the `when`-rhs sub-grammar builds),
would indeed produce `Notion(true)`. -/
theorem c4_condition_initializer_errors :
    parseProgram 30 c4Tokens = .ok [.So "a" .Notion (some c4Initializer)]
    ∧ executeStmt 30 (.So "a" .Notion (some c4Initializer)) Env.empty =
      .error (.new "None verb invalid")
    ∧ evaluate 30 c4ConditionTree Env.empty = .ok (.Notion true, Env.empty) := by
  refine ⟨?_, ?_, ?_⟩ <;> with_unfolding_all rfl

/-- C6: the claim says digits are recognized only inside `[ ]` and that bare
digits are a lexical error with the bracket hint.  The scanner.rs in the
snapshot is an earlier revision: `"123"` lexes to a `Number` token with zero
errors, while `"[123]"` produces two "Unexpected character" errors (for `[`
and `]`) around a bare `Number` token — and no bracket hint exists anywhere
in it. -/
theorem c6_scanner_accepts_bare_digits :
    LegacyScanner.tokenize 99 "123" (fun _ => none) =
      ([⟨.Number, "123", some "123.0", 1⟩, ⟨.EOF, "", none, 1⟩], 0)
    ∧ LegacyScanner.tokenize 99 "[123]" (fun _ => none) =
      ([⟨.Number, "123", some "123.0", 1⟩, ⟨.EOF, "", none, 1⟩], 2) := by
  refine ⟨?_, ?_⟩ <;> with_unfolding_all rfl

/-- C2 counterexample: the claim's final case ("otherwise the result is
`Conclusion(value)`") fails when the hence value is a noun instance: `n`
evaluates without error to the non-Void, non-Skip, non-falsy value
`Noun(Point)`, yet `evaluate_hence` returns the truthiness error instead of
a `Conclusion`. -/
theorem c2_hence_claim_counterexample :
    evaluate 5 (.Primary (.Variable "n")) c2Env = .ok (.Noun ⟨"Point"⟩, c2Env)
    ∧ evaluate_hence 5 (.Primary (.Variable "n")) c2Env =
      .error (.new "No implementation of truth for noun Point") := by
  refine ⟨?_, ?_⟩ <;> with_unfolding_all rfl

/-! ### Helper lemmas -/

theorem ok_bind {α β ε : Type} (a : α) (f : α → Except ε β) :
    (Except.ok a >>= f : Except ε β) = f a := rfl

theorem scopeContains_false_iff (s : Scope) (n : String) :
    scopeContains s n = false ↔ scopeGet s n = none := by
  simp only [scopeContains]
  cases scopeGet s n <;> simp

theorem scopeContains_true_iff (s : Scope) (n : String) :
    scopeContains s n = true ↔ ∃ v, scopeGet s n = some v := by
  simp only [scopeContains]
  cases scopeGet s n <;> simp

theorem scopeGet_insert_self (vs : Scope) (n : String) (v : Evaluation) :
    scopeGet (scopeInsert vs n v) n = some v := by
  induction vs with
  | nil => simp [scopeInsert, scopeGet]
  | cons kv rest ih =>
    by_cases h : kv.1 = n
    · simp [scopeInsert, scopeGet, h]
    · simp [scopeInsert, scopeGet, h, ih]

theorem scopeGet_insert_other (vs : Scope) (n m : String) (v : Evaluation) (h : m ≠ n) :
    scopeGet (scopeInsert vs n v) m = scopeGet vs m := by
  induction vs with
  | nil =>
    simp [scopeInsert, scopeGet]
    exact Ne.symm h
  | cons kv rest ih =>
    by_cases hk : kv.1 = n
    · have hm : ¬ kv.1 = m := by rw [hk]; exact Ne.symm h
      simp [scopeInsert, scopeGet, hk, hm, Ne.symm h]
    · simp [scopeInsert, scopeGet, hk, ih]

theorem env_get_eq_findSome (env : Env) (n : String) :
    env.get n = env.scopes.findSome? (fun s => scopeGet s n) := by
  induction env with
  | root vs =>
    simp only [Env.get, Env.scopes, List.findSome?_cons, List.findSome?_nil]
    cases scopeGet vs n <;> rfl
  | child vs o ih =>
    simp only [Env.get, Env.scopes, List.findSome?_cons]
    cases scopeGet vs n <;> simp [ih]

theorem env_assign_toOption (env : Env) (n : String) (v : Evaluation) :
    (env.assign n v).toOption.map Env.scopes = assignScopes env.scopes n v := by
  induction env with
  | root vs =>
    cases h : scopeContains vs n <;>
      simp [Env.assign, Env.scopes, assignScopes, h, Except.toOption]
  | child vs o ih =>
    cases h : scopeContains vs n
    · simp only [Env.assign, Env.scopes, assignScopes, h, Bool.false_eq_true, if_false]
      cases ho : o.assign n v <;> simp_all [Except.toOption, Except.map]
      · cases has : assignScopes o.scopes n v <;> simp_all
      · cases has : assignScopes o.scopes n v <;> simp_all [Env.scopes]
    · simp [Env.assign, Env.scopes, assignScopes, h, Except.toOption]

theorem env_assign_error_iff (env : Env) (n : String) (v : Evaluation) :
    env.assign n v = .error n ↔ ∀ s ∈ env.scopes, scopeGet s n = none := by
  induction env with
  | root vs =>
    cases h : scopeContains vs n
    · simp [Env.assign, Env.scopes, h, (scopeContains_false_iff vs n).mp h]
    · obtain ⟨w, hw⟩ := (scopeContains_true_iff vs n).mp h
      simp [Env.assign, Env.scopes, h, hw]
  | child vs o ih =>
    cases h : scopeContains vs n
    · simp only [Env.assign, Env.scopes, h, Bool.false_eq_true, if_false]
      cases ho : o.assign n v <;>
        simp_all [Except.map, (scopeContains_false_iff vs n).mp h]
    · obtain ⟨w, hw⟩ := (scopeContains_true_iff vs n).mp h
      simp [Env.assign, Env.scopes, h, hw]

theorem env_assign_error_name (env : Env) (n : String) (v : Evaluation) :
    ∀ e, env.assign n v = .error e → e = n := by
  induction env with
  | root vs =>
    intro e he
    cases h : scopeContains vs n <;> simp_all [Env.assign]
  | child vs o ih =>
    intro e he
    cases h : scopeContains vs n <;> simp_all [Env.assign]
    cases ho : o.assign n v <;> simp_all [Except.map]

theorem listSimpleTyped_mem (es : List Evaluation) (h : listSimpleTyped es = true) :
    ∀ e ∈ es, isSimpleTyped e = true := by
  induction es with
  | nil => intro e he; cases he
  | cons a as ih =>
    simp only [listSimpleTyped, Bool.and_eq_true] at h
    intro e he
    rcases List.mem_cons.mp he with rfl | he
    · exact h.1
    · exact ih h.2 e he

theorem parityList_refl (es : List Evaluation) (h : ∀ e ∈ es, e.parity e = .ok ()) :
    parityList es es = .ok () := by
  induction es with
  | nil => simp [parityList]
  | cons e rest ih =>
    simp only [parityList, h e (by simp)]
    exact ih (fun e' he' => h e' (by simp [he']))

theorem parity_refl_simple (v : Evaluation) (h : isSimpleTyped v = true) :
    v.parity v = .ok () := by
  match v with
  | .Number q => simp [Evaluation.parity]
  | .Text t => simp [Evaluation.parity]
  | .Notion b => simp [Evaluation.parity]
  | .Noun s => simp [Evaluation.parity]
  | .Collective es =>
    have hes : ∀ e ∈ es, e.parity e = .ok () := by
      intro e he
      have hst := listSimpleTyped_mem es (by simpa [isSimpleTyped] using h) e he
      exact parity_refl_simple e hst
    simp [Evaluation.parity]
    exact parityList_refl es hes
termination_by sizeOf v
decreasing_by
  have := List.sizeOf_lt_of_mem he
  simp
  omega

theorem parity_void_direction (v : Evaluation) (dt : Datatype) (h : v.datatype = some dt) :
    Evaluation.Void.parity v = .error ("expected Void but found " ++ dt.display)
    ∧ v.parity .Void = .error ("expected " ++ dt.display ++ " but found Void") := by
  cases v <;> simp_all [Evaluation.parity, Evaluation.datatype]

theorem parity_single_collective_lift (x y : Evaluation) (hv : y ≠ .Void)
    (hc : ∀ ys, y ≠ .Collective ys) :
    (Evaluation.Collective [x]).parity y = x.parity y
    ∧ y.parity (.Collective [x]) = y.parity x := by
  cases y <;> simp_all [Evaluation.parity]

/-! ### The remaining claim theorems -/

/-- C2 (amended): for a `hence` whose phrase evaluates without error, a
`Void` value is an error; a `Skip` yields a `Conclusion` carrying the skip
unchanged; a value whose truthiness is defined yields `Conclusion(value)`
when truthy and `Conclusion(Skip(value))` when falsy; a value with undefined
truthiness (noun, action, adjective instances) propagates the truthiness
error instead of concluding.  And the routine statement loop stops at the
first `Conclusion`, returning its inner value regardless of what follows. -/
theorem c2_hence_semantics :
    (∀ fuel phrase env v env', evaluate fuel phrase env = .ok (v, env') →
      ((v = .Void →
          evaluate_hence (fuel + 1) phrase env = .error (.new "Invalid void as hence value"))
      ∧ (∀ s, v = .Skip s →
          evaluate_hence (fuel + 1) phrase env = .ok (.Conclusion (.Skip s), env'))
      ∧ (∀ b, evaluate_truth v = .ok (.Notion b) →
          evaluate_hence (fuel + 1) phrase env =
            .ok (.Conclusion (if b then v else .Skip v), env'))
      ∧ (∀ e, evaluate_truth v = .error e → v ≠ .Void → (∀ s, v ≠ .Skip s) →
          evaluate_hence (fuel + 1) phrase env = .error e)))
    ∧ (∀ fuel stmt rest env v env₁, executeStmt fuel stmt env = .ok (.Conclusion v, env₁) →
        runBody (fuel + 1) (stmt :: rest) env = .ok (v, env₁)) := by
  constructor
  · intro fuel phrase env v env' h
    refine ⟨?_, ?_, ?_, ?_⟩
    · intro hv
      subst hv
      simp [evaluate_hence, h, ok_bind]
    · intro s hs
      subst hs
      simp [evaluate_hence, h, ok_bind]
    · intro b ht
      cases v <;>
        simp_all [evaluate_hence, h, ok_bind, evaluate_truth] <;>
        (try (cases b <;> simp_all))
    · intro e ht hv hs
      cases v <;> simp_all [evaluate_hence, h, ok_bind, evaluate_truth]
  · intro fuel stmt rest env v env₁ h
    simp [runBody, h, ok_bind]

/-- C2 witness: `hence false` concludes with `Skip(Notion(false))`, and a
body whose first statement concludes `Notion(true)` returns it without
touching the (invalid) statement after it. -/
theorem c2_hence_semantics_witness :
    evaluate_hence 3 (.Primary .False) Env.empty =
      .ok (.Conclusion (.Skip (.Notion false)), Env.empty)
    ∧ runBody 5 [.Hence (.Primary .True), .Phrase .None] Env.empty =
      .ok (.Notion true, Env.empty) := by
  constructor
  · have h := (c2_hence_semantics.1 2 (.Primary .False) Env.empty (.Notion false) Env.empty
      (by with_unfolding_all rfl)).2.2.1 false (by with_unfolding_all rfl)
    simpa using h
  · exact c2_hence_semantics.2 4 (.Hence (.Primary .True)) [.Phrase .None] Env.empty
      (.Notion true) Env.empty (by with_unfolding_all rfl)

/-- C5: lookup walks the outer chain returning the innermost defining
scope's value (`findSome?` over the scope list); `define` rewrites only the
current scope, overwriting a same-name binding there and preserving every
other binding; `assign` updates exactly the innermost scope that already
defines the name (`assignScopes`), errs with the variable's name — from which
the callers format `"Undefined variable x."` — precisely when no scope in
the chain defines it, and the error always carries that name. -/
theorem c5_environment_ops :
    ∀ (env : Env) (n m : String) (v : Evaluation) (vs : Scope),
      (env.get n = env.scopes.findSome? (fun s => scopeGet s n))
      ∧ (scopeGet (scopeInsert vs n v) n = some v)
      ∧ (m ≠ n → scopeGet (scopeInsert vs n v) m = scopeGet vs m)
      ∧ ((env.define n v).scopes = scopeInsert env.values n v :: env.scopes.tail)
      ∧ ((env.assign n v).toOption.map Env.scopes = assignScopes env.scopes n v)
      ∧ (env.assign n v = .error n ↔ ∀ s ∈ env.scopes, scopeGet s n = none)
      ∧ (∀ e, env.assign n v = .error e → e = n) := by
  intro env n m v vs
  refine ⟨env_get_eq_findSome env n, scopeGet_insert_self vs n v,
    fun h => scopeGet_insert_other vs n m v h, ?_, env_assign_toOption env n v,
    env_assign_error_iff env n v, env_assign_error_name env n v⟩
  cases env <;> rfl

/-- C5 witness: inserting `x` leaves `y` alone, and assigning into an empty
chain errs with the name. -/
theorem c5_environment_ops_witness :
    scopeGet (scopeInsert [("x", Evaluation.Number 1)] "x" (.Number 2)) "y" =
      scopeGet [("x", Evaluation.Number 1)] "y"
    ∧ (Env.root []).assign "x" (.Number 1) = .error "x" := by
  constructor
  · exact (c5_environment_ops (Env.root []) "x" "y" (.Number 2)
      [("x", .Number 1)]).2.2.1 (by decide)
  · exact ((c5_environment_ops (Env.root []) "x" "y" (.Number 1)
      []).2.2.2.2.2.1).mpr (by simp [Env.scopes, scopeGet])

/-- C7 counterexample: an `Evaluation::Action` is typed (`datatype` is
`some`), yet `parity` with itself lands in the catch-all arm and errs; and
the single-element-collective lift is not an iff against `Void`:
`Collective([Number 1]) ~ Void` is ok (collectives are untyped) while
`Number 1 ~ Void` errs. -/
theorem c7_parity_claim_counterexample :
    (Evaluation.Action c7Routine).datatype = some (.Verb (VerbType.mk "f" [] none))
    ∧ (Evaluation.Action c7Routine).parity (Evaluation.Action c7Routine) =
      .error "expected Verb(f() -> Void) but found Verb(f() -> Void)"
    ∧ (Evaluation.Collective [.Number 1]).parity .Void = .ok ()
    ∧ (Evaluation.Number 1).parity .Void = .error "expected Number but found Void" := by
  refine ⟨rfl, ?_, ?_, ?_⟩
  · simp [Evaluation.parity, Evaluation.datatypeDisplay, Evaluation.datatype,
      Datatype.display, VerbType.display, VerbType.new, Routine.new, c7Routine,
      listVarDisplay, Routine.objectParameters, Routine.name, Routine.subjectType,
      String.intercalate]
  · simp [Evaluation.parity, Evaluation.datatype]
  · simp [Evaluation.parity, Evaluation.datatype, Datatype.display]

/-- C7 (amended): `parity` is reflexive on the `Action`/`Adjective`-free
typed fragment (numbers, text, notions, nouns, and collectives of such); a
`Void` against a value with a datatype errs direction-aware in both orders;
and single-element collectives unwrap on either side against any value that
is neither `Void` nor itself a collective. -/
theorem c7_parity_amended :
    (∀ v, isSimpleTyped v = true → v.parity v = .ok ())
    ∧ (∀ v dt, v.datatype = some dt →
        Evaluation.Void.parity v = .error ("expected Void but found " ++ dt.display)
        ∧ v.parity .Void = .error ("expected " ++ dt.display ++ " but found Void"))
    ∧ (∀ x y, y ≠ .Void → (∀ ys, y ≠ .Collective ys) →
        (Evaluation.Collective [x]).parity y = x.parity y
        ∧ y.parity (.Collective [x]) = y.parity x) :=
  ⟨parity_refl_simple,
   fun v dt h => parity_void_direction v dt h,
   fun x y hv hc => parity_single_collective_lift x y hv hc⟩

/-- C7 witness: reflexivity on a mixed collective, and the unwrap equations
at concrete values. -/
theorem c7_parity_amended_witness :
    (Evaluation.Collective [.Number 2, .Text "a"]).parity
      (.Collective [.Number 2, .Text "a"]) = .ok ()
    ∧ (Evaluation.Collective [.Notion true]).parity (.Text "t") =
      (Evaluation.Notion true).parity (.Text "t") := by
  constructor
  · exact c7_parity_amended.1 _ rfl
  · exact (c7_parity_amended.2.2 (.Notion true) (.Text "t") (by simp)
      (fun ys => by simp)).1

/-- C8: loading the cached intermediate succeeds exactly when the read and
the deserialization succeed and the stored hash equals the source hash; a
successful load is used as-is with nothing re-serialized, and any failure —
I/O, deserialization, or hash mismatch — makes `to_token` run the lexer and
save the fresh `{hash, tokens}` intermediate. -/
theorem c8_intermediate_cache :
    ∀ (readBytes : Except String (List Nat))
      (deserialize : List Nat → Except String Intermediate)
      (sourceHash : List Nat) (content : String) (tokenize : String → List Token),
      ((∃ i, Intermediate.tryFromSource readBytes deserialize sourceHash = .ok i) ↔
        (∃ bytes i, readBytes = .ok bytes ∧ deserialize bytes = .ok i ∧ i.hash = sourceHash))
      ∧ (∀ i, Intermediate.tryFromSource readBytes deserialize sourceHash = .ok i →
          i.hash = sourceHash ∧
          to_token readBytes deserialize sourceHash content tokenize = (i, none))
      ∧ (∀ e, Intermediate.tryFromSource readBytes deserialize sourceHash = .error e →
          to_token readBytes deserialize sourceHash content tokenize =
            (⟨sourceHash, tokenize content⟩, some ⟨sourceHash, tokenize content⟩)) := by
  intro readBytes deserialize sourceHash content tokenize
  cases readBytes with
  | error e => simp [Intermediate.tryFromSource, to_token]
  | ok bytes =>
    cases hd : deserialize bytes with
    | error e => simp [Intermediate.tryFromSource, to_token, hd]
    | ok i =>
      by_cases hh : sourceHash = i.hash
      · simp [Intermediate.tryFromSource, to_token, hd, hh]
      · simp [Intermediate.tryFromSource, to_token, hd, hh]
        exact fun h => hh h.symm

/-- C8 witness: a stored hash `[2]` against source hash `[1]` is a miss, so
the (trivial) lexer runs and the fresh intermediate is saved. -/
theorem c8_intermediate_cache_witness :
    to_token (.ok [1]) (fun _ => .ok ⟨[2], []⟩) [1] "" (fun _ => []) =
      (⟨[1], []⟩, some ⟨[1], []⟩) :=
  (c8_intermediate_cache (.ok [1]) (fun _ => .ok ⟨[2], []⟩) [1] "" (fun _ => [])).2.2
    .None (by with_unfolding_all rfl)

/-- C9: a so-declaration whose initializer evaluates successfully fails
exactly when the value is `Void`; any other value — the declared datatype
`datatype` is arbitrary and never compared — is bound under the name and
returned. -/
theorem c9_so_initializer_unchecked :
    ∀ fuel name datatype phrase env v env',
      evaluate fuel phrase env = .ok (v, env') →
      ((v = .Void → declare_so (fuel + 1) name datatype (some phrase) env =
          .error (.new "Unable to initialize so declaration with Void phrase."))
      ∧ (v ≠ .Void → declare_so (fuel + 1) name datatype (some phrase) env =
          .ok (v, env'.define name v))
      ∧ ((∃ r, declare_so (fuel + 1) name datatype (some phrase) env = .ok r) ↔
          v ≠ .Void)) := by
  intro fuel name datatype phrase env v env' h
  have hVoid : v = .Void → declare_so (fuel + 1) name datatype (some phrase) env =
      .error (.new "Unable to initialize so declaration with Void phrase.") := by
    intro hv
    subst hv
    simp [declare_so, h, ok_bind]
  have hVal : v ≠ .Void → declare_so (fuel + 1) name datatype (some phrase) env =
      .ok (v, env'.define name v) := by
    intro hv
    cases v <;> simp_all [declare_so, h, ok_bind]
  refine ⟨hVoid, hVal, ?_, ?_⟩
  · rintro ⟨r, hr⟩ hv
    rw [hVoid hv] at hr
    exact Except.noConfusion hr
  · intro hv
    exact ⟨(v, env'.define name v), hVal hv⟩

/-- C9 witness: `so x is Text as [3].` binds `x` to `Number(3.0)` — a
Number value under a Text declaration, bound without any parity check. -/
theorem c9_so_initializer_unchecked_witness :
    declare_so 3 "x" .Text (some (.Primary (.Number "3.0"))) Env.empty =
      .ok (.Number 3, Env.empty.define "x" (.Number 3)) :=
  (c9_so_initializer_unchecked 2 "x" .Text (.Primary (.Number "3.0")) Env.empty
    (.Number 3) Env.empty (by with_unfolding_all rfl)).2.1 (by simp)

/-- C10: in a named action, once subject and object are evaluated, a `Skip`
subject is returned unchanged and a `Skip` object returns the subject's
value — in both cases with the post-evaluation environment untouched and for
*every* verb name, bound or not (the routine is neither looked up nor
invoked). -/
theorem c10_action_skip_short_circuit :
    ∀ fuel name sphrs ophrs env sv env₁ ov env₂,
      evaluate fuel sphrs env = .ok (sv, env₁) →
      evaluate fuel ophrs env₁ = .ok (ov, env₂) →
      ((∀ s, sv = .Skip s →
          evaluate_action (fuel + 1) (.Action name) (some sphrs) (some ophrs) env =
            .ok (.Skip s, env₂))
      ∧ ((∀ s, sv ≠ .Skip s) → (∀ o, ov = .Skip o →
          evaluate_action (fuel + 1) (.Action name) (some sphrs) (some ophrs) env =
            .ok (sv, env₂)))) := by
  intro fuel name sphrs ophrs env sv env₁ ov env₂ h₁ h₂
  constructor
  · intro s hs
    subst hs
    simp [evaluate_action, h₁, h₂, ok_bind]
  · intro hs o ho
    subst ho
    cases sv <;> simp_all [evaluate_action, h₁, h₂, ok_bind]

/-- C10 witness: the verb name `nosuchverb` is bound to nothing, yet the
skipped subject short-circuits the action to `Skip(Notion(true))` with the
environment unchanged. -/
theorem c10_action_skip_short_circuit_witness :
    evaluate_action 5 (.Action "nosuchverb")
      (some (.PostfixQ (.Primary .True) (.Primary .False)))
      (some (.Primary (.Number "1.0"))) Env.empty =
      .ok (.Skip (.Notion true), Env.empty)
    ∧ Env.empty.get "nosuchverb" = none := by
  constructor
  · exact (c10_action_skip_short_circuit 4 "nosuchverb"
      (.PostfixQ (.Primary .True) (.Primary .False)) (.Primary (.Number "1.0"))
      Env.empty (.Skip (.Notion true)) Env.empty (.Number 1) Env.empty
      (by with_unfolding_all rfl) (by with_unfolding_all rfl)).1 (.Notion true) rfl
  · rfl
